import Mathlib

/-!
Shallow embedding of the draft lifecycle / publishing core of the
telegram_social_agent repository (orchestrator.py, llm/router.py,
validators.py, utils.py, models.py), with theorems settling the frozen
claims about it.

Python strings are modelled as `List Char`; Python ints as `Int`/`Nat`;
Python floats as `Rat`; raised exceptions as `Except`/`Option` error
channels; the SQLite store as an explicit `DB` record threaded through
every operation, mirroring the connection parameter of the source.
-/

/-- Python text values. -/
abbrev Str := List Char

/-- Python slice `s[:k]`: for nonnegative `k` the first `k` characters,
for negative `k` all but the last `-k` characters (clamped at empty). -/
def pySliceTo (s : Str) (k : Int) : Str :=
  if 0 ≤ k then s.take k.toNat else s.take ((s.length : Int) + k).toNat

/-- Python `str.rstrip()` (whitespace set approximated by `Char.isWhitespace`). -/
def rstrip (s : Str) : Str :=
  (s.reverse.dropWhile Char.isWhitespace).reverse

/-- Python `str.lstrip()`. -/
def lstrip (s : Str) : Str :=
  s.dropWhile Char.isWhitespace

/-- Python `str.strip()`. -/
def pyStrip (s : Str) : Str :=
  rstrip (lstrip s)

/-- Python `str.upper()` (ASCII). -/
def pyUpper (s : Str) : Str :=
  s.map Char.toUpper

/-- Python `str.lower()` (ASCII). -/
def pyLower (s : Str) : Str :=
  s.map Char.toLower

/-- Association-list lookup, modelling Python `dict.get` on the dicts the
code uses (first binding wins). -/
def alookup {α : Type} : List (Str × α) → Str → Option α
  | [], _ => none
  | (k, v) :: rest, key => if k = key then some v else alookup rest key

/-- `validators.DEFAULT_LIMITS`. The Python dict raises `KeyError` off the
three supported platforms; the embedding is only ever applied to members of
`PLATFORMS`, where it agrees with the source. -/
def DEFAULT_LIMITS (platform : Str) : Int :=
  if platform = "x".toList then 280
  else if platform = "threads".toList then 500
  else if platform = "linkedin".toList then 3000
  else 0

/-- `orchestrator.PLATFORMS`. -/
def PLATFORMS : List Str :=
  ["x".toList, "threads".toList, "linkedin".toList]

/-- Per-route pricing entry (`config["pricing"][key]`). -/
structure Pricing where
  input_per_1k : Rat
  output_per_1k : Rat
deriving DecidableEq

/-- The resolved configuration view: exactly the keys the embedded code
reads, with the source's `.get(..., default)` defaults baked in. -/
structure Config where
  x_enabled : Bool := true
  threads_enabled : Bool := true
  linkedin_enabled : Bool := true
  llm_enabled : Bool := true
  dry_run : Bool := true
  approval_required : Bool := true
  platform_limits : List (Str × Int) := []
  routing : List (Str × List Str) := []
  pricing : List (Str × Pricing) := []
  temperature : Rat := 2/5
  max_tokens : Nat := 700
  timeout_seconds : Nat := 30

/-- `validators.get_limit`. -/
def get_limit (config : Config) (platform : Str) : Int :=
  (alookup config.platform_limits (platform ++ "_max_chars".toList)).getD
    (DEFAULT_LIMITS platform)

/-- The dict returned by `validators.validate_draft`. -/
structure Validation where
  ok : Bool
  length : Nat
  limit : Int
  issues : List Str
  text : Str
deriving DecidableEq

/-- `validators.validate_draft`. -/
def validate_draft (platform : Str) (content : Str) (config : Config) : Validation :=
  let limit := get_limit config platform
  let length := content.length
  { ok := decide ((length : Int) ≤ limit)
    length := length
    limit := limit
    issues :=
      if (length : Int) > limit then
        ["Length ".toList ++ (toString length).toList ++
          " exceeds ".toList ++ (toString limit).toList]
      else []
    text := content }

/-- `validators.truncate_to_limit`. -/
def truncate_to_limit (content : Str) (limit : Int) : Str :=
  if (content.length : Int) ≤ limit then content
  else if limit ≤ 3 then pySliceTo content limit
  else rstrip (content.take (limit - 3).toNat) ++ "...".toList

/-- Python `str.split()` with no separator: whitespace-delimited words,
empties discarded. Accumulator holds the current word reversed. -/
def pySplitAux : Str → Str → List Str
  | [], acc => if acc.isEmpty then [] else [acc.reverse]
  | c :: rest, acc =>
    if c.isWhitespace then
      if acc.isEmpty then pySplitAux rest []
      else acc.reverse :: pySplitAux rest []
    else pySplitAux rest (c :: acc)

/-- Python `text.split()`. -/
def pySplit (s : Str) : List Str :=
  pySplitAux s []

/-- Python `" ".join(words)`. -/
def joinSpace : List Str → Str
  | [] => []
  | [w] => w
  | w :: ws => w ++ ' ' :: joinSpace ws

/-- `utils.hash_text`. The sha256 hex digest is modelled by the normalized
text itself: the code only ever compares digests for equality, and the
system treats the digest as identifying the normalized content. -/
def hash_text (text : Str) : Str :=
  joinSpace (pySplit (pyLower (pyStrip text)))

/-- A JSON-ish scalar, for the small metadata dicts the code builds. -/
inductive MVal where
  | s (v : Str)
  | n (v : Nat)
  | b (v : Bool)
deriving DecidableEq

/-- A metadata dict with scalar values (`meta=...` arguments, payloads). -/
abbrev MetaD := List (Str × MVal)

/-- A row of the `entries` table. -/
structure Entry where
  id : Nat
  user_id : Str
  created_at : Str
  text : Str
  text_hash : Str
  source : Str
  flags : MetaD
deriving DecidableEq

/-- The `mode`/`stage`/`reason`-or-`provider`/`model` dicts built for
summary and generation provenance. -/
structure StageMeta where
  mode : Str
  stage : Str
  reason : Option Str := none
  provider : Option Str := none
  model : Option Str := none
deriving DecidableEq

/-- The draft `meta_json` payload: union of the fields stored by
`generate_drafts`, `regenerate_draft` and `edit_draft`. -/
structure DraftMeta where
  summary : Option Str := none
  summary_meta : Option StageMeta := none
  generation : Option StageMeta := none
  strict : Option Bool := none
  validation : Option Validation := none
  regenerated_from : Option Nat := none
  edited_from : Option Nat := none
deriving DecidableEq

/-- A row of the `drafts` table. -/
structure Draft where
  id : Nat
  entry_id : Nat
  platform : Str
  created_at : Str
  content : Str
  status : Str
  scheduled_at : Option Str
  meta : DraftMeta
  version : Nat
deriving DecidableEq

/-- A row of the `publish_logs` table. -/
structure PublishLog where
  id : Nat
  draft_id : Nat
  platform : Str
  attempted_at : Str
  success : Bool
  response : Option Str
  error : Option Str
deriving DecidableEq

/-- A row of the `llm_calls` table. -/
structure LLMCall where
  id : Nat
  stage : Str
  provider : Str
  model : Str
  tokens_in : Nat
  tokens_out : Nat
  cost_usd : Rat
  latency_ms : Nat
  created_at : Str
  meta : MetaD
deriving DecidableEq

/-- A row of the `undo_actions` table. -/
structure UndoAction where
  id : Nat
  user_id : Str
  action_type : Str
  payload : MetaD
  created_at : Str
  undone : Bool
deriving DecidableEq

/-- The SQLite store. AUTOINCREMENT ids are modelled by `next_*` counters;
`dry_run_setting` is the `dry_run` key of the `__global__` settings row;
`now` is the wall clock read by `utils.utc_now_iso` (constant within a
call, as the claims never depend on timestamp values). -/
structure DB where
  entries : List Entry := []
  drafts : List Draft := []
  publish_logs : List PublishLog := []
  llm_calls : List LLMCall := []
  undo_actions : List UndoAction := []
  dry_run_setting : Option Bool := none
  next_entry_id : Nat := 1
  next_draft_id : Nat := 1
  next_publish_log_id : Nat := 1
  next_llm_call_id : Nat := 1
  next_undo_id : Nat := 1
  now : Str := []
deriving DecidableEq

/-- `models.get_entry_by_hash` (first row in insertion order). -/
def get_entry_by_hash (db : DB) (user_id text_hash : Str) : Option Entry :=
  db.entries.find? (fun e => decide (e.user_id = user_id ∧ e.text_hash = text_hash))

/-- `models.create_entry`. -/
def create_entry (db : DB) (user_id text text_hash source : Str) (flags : MetaD) :
    DB × Entry :=
  let e : Entry :=
    { id := db.next_entry_id, user_id := user_id, created_at := db.now,
      text := text, text_hash := text_hash, source := source, flags := flags }
  ({ db with entries := db.entries ++ [e], next_entry_id := db.next_entry_id + 1 }, e)

/-- `models.get_entry`. -/
def get_entry (db : DB) (entry_id : Nat) : Option Entry :=
  db.entries.find? (fun e => decide (e.id = entry_id))

/-- `models.get_next_draft_version`: `max(version)` over the entry+platform
group (0 when empty), plus one. -/
def get_next_draft_version (db : DB) (entry_id : Nat) (platform : Str) : Nat :=
  ((db.drafts.filter
      (fun d => decide (d.entry_id = entry_id ∧ d.platform = platform))).foldl
    (fun acc d => max acc d.version) 0) + 1

/-- `models.create_draft` (the orchestrator never passes an explicit
`scheduled_at` or `version`, so the version is always freshly computed). -/
def create_draft (db : DB) (entry_id : Nat) (platform content status : Str)
    (meta : DraftMeta) : DB × Draft :=
  let version := get_next_draft_version db entry_id platform
  let d : Draft :=
    { id := db.next_draft_id, entry_id := entry_id, platform := platform,
      created_at := db.now, content := content, status := status,
      scheduled_at := none, meta := meta, version := version }
  ({ db with drafts := db.drafts ++ [d], next_draft_id := db.next_draft_id + 1 }, d)

/-- `models.get_draft`. -/
def get_draft (db : DB) (draft_id : Nat) : Option Draft :=
  db.drafts.find? (fun d => decide (d.id = draft_id))

/-- SQLite TEXT `<=` (bytewise; ISO timestamps compare chronologically). -/
def strLe : Str → Str → Bool
  | [], _ => true
  | _ :: _, [] => false
  | a :: as, b :: bs =>
    if a.toNat < b.toNat then true
    else if b.toNat < a.toNat then false
    else strLe as bs

/-- The `WHERE` clause of `models.list_due_scheduled_drafts`. -/
def dueFilter (now_iso : Str) (d : Draft) : Bool :=
  decide (d.status = "scheduled".toList) &&
    match d.scheduled_at with
    | some t => strLe t now_iso
    | none => false

/-- `ORDER BY scheduled_at ASC, id ASC` as a total order on draft rows. -/
def dueOrder (a b : Draft) : Prop :=
  (if a.scheduled_at.getD [] = b.scheduled_at.getD []
    then decide (a.id ≤ b.id)
    else strLe (a.scheduled_at.getD []) (b.scheduled_at.getD [])) = true

instance : DecidableRel dueOrder := fun a b => by
  unfold dueOrder
  infer_instance

/-- `models.list_due_scheduled_drafts`. -/
def list_due_scheduled_drafts (db : DB) (now_iso : Str) : List Draft :=
  List.insertionSort dueOrder (db.drafts.filter (dueFilter now_iso))

/-- `models.update_draft_status`: sets both `status` and `scheduled_at` on
the row with the given id, then re-fetches it. -/
def update_draft_status (db : DB) (draft_id : Nat) (status : Str)
    (scheduled_at : Option Str) : DB × Option Draft :=
  let db' :=
    { db with
      drafts := db.drafts.map (fun d =>
        if d.id = draft_id then { d with status := status, scheduled_at := scheduled_at }
        else d) }
  (db', get_draft db' draft_id)

/-- `models.create_publish_log`. -/
def create_publish_log (db : DB) (draft_id : Nat) (platform : Str) (success : Bool)
    (response : Option Str) (error : Option Str) : DB × PublishLog :=
  let row : PublishLog :=
    { id := db.next_publish_log_id, draft_id := draft_id, platform := platform,
      attempted_at := db.now, success := success, response := response, error := error }
  ({ db with publish_logs := db.publish_logs ++ [row],
             next_publish_log_id := db.next_publish_log_id + 1 }, row)

/-- `models.log_llm_call`. -/
def log_llm_call (db : DB) (stage provider model : Str) (tokens_in tokens_out : Nat)
    (cost_usd : Rat) (latency_ms : Nat) (meta : MetaD) : DB × LLMCall :=
  let row : LLMCall :=
    { id := db.next_llm_call_id, stage := stage, provider := provider, model := model,
      tokens_in := tokens_in, tokens_out := tokens_out, cost_usd := cost_usd,
      latency_ms := latency_ms, created_at := db.now, meta := meta }
  ({ db with llm_calls := db.llm_calls ++ [row],
             next_llm_call_id := db.next_llm_call_id + 1 }, row)

/-- `models.create_undo_action`. -/
def create_undo_action (db : DB) (user_id action_type : Str) (payload : MetaD) : DB :=
  let row : UndoAction :=
    { id := db.next_undo_id, user_id := user_id, action_type := action_type,
      payload := payload, created_at := db.now, undone := false }
  { db with undo_actions := db.undo_actions ++ [row], next_undo_id := db.next_undo_id + 1 }

/-- `models.get_global_setting(conn, "dry_run", default)`. -/
def get_global_setting_dry_run (db : DB) (default : Bool) : Bool :=
  db.dry_run_setting.getD default

/-- `llm.types.LLMRequest`. -/
structure LLMRequest where
  stage : Str
  prompt : Str
  system : Str
  model : Str
  temperature : Rat
  max_tokens : Nat
  timeout_seconds : Nat
  meta : MetaD
deriving DecidableEq

/-- `llm.types.LLMResult` (the unused `raw` payload is dropped). -/
structure LLMResult where
  text : Str
  provider : Str
  model : Str
  tokens_in : Nat := 0
  tokens_out : Nat := 0
  latency_ms : Nat := 0
deriving DecidableEq

/-- A registered provider: `provider.generate(request)`, which either
returns a result or raises (modelled by `Except` with the error text). -/
abbrev Provider := LLMRequest → Except Str LLMResult

/-- `llm.router.LLMRouter`: its constructor-injected configuration,
`models_reference["routing"]` table and provider registry. -/
structure LLMRouter where
  config : Config
  models_routing : List (Str × List Str) := []
  providers : List (Str × Provider) := []

/-- The exceptions `LLMRouter.generate` can raise: `ProviderError`
(no routes / all routes failed) or the `ValueError` of
`config.parse_route` on a route string without a colon. -/
inductive GenErr where
  | providerError (msg : Str)
  | valueError (msg : Str)
deriving DecidableEq

/-- Split a string at its first colon, if any. -/
def splitFirstColon : Str → Option (Str × Str)
  | [] => none
  | c :: rest =>
    if c = ':' then some ([], rest)
    else
      match splitFirstColon rest with
      | some (a, b) => some (c :: a, b)
      | none => none

/-- `config.parse_route`: `none` models the `ValueError` raised when the
route string has no colon. -/
def parse_route (route : Str) : Option (Str × Str) :=
  match splitFirstColon route with
  | some (p, m) => some (pyStrip p, pyStrip m)
  | none => none

/-- `LLMRouter._routes_for_stage`: a nonempty per-stage list in
`models_reference["routing"]` wins, else the configuration's list. -/
def LLMRouter.routesForStage (R : LLMRouter) (stage : Str) : List Str :=
  match alookup R.models_routing stage with
  | some rs => if rs.isEmpty then (alookup R.config.routing stage).getD [] else rs
  | none => (alookup R.config.routing stage).getD []

/-- `LLMRouter._estimate_cost`. -/
def LLMRouter.estimateCost (config : Config) (provider model : Str)
    (tokens_in tokens_out : Nat) : Rat :=
  match alookup config.pricing (provider ++ ':' :: model) with
  | none => 0
  | some p =>
    ((tokens_in : Rat) / 1000) * p.input_per_1k +
      ((tokens_out : Rat) / 1000) * p.output_per_1k

/-- Python `" | ".join(errors)`. -/
def joinBar : List Str → Str
  | [] => []
  | [e] => e
  | e :: es => e ++ " | ".toList ++ joinBar es

/-- The request `LLMRouter.generate` hands to a provider. -/
def LLMRouter.mkRequest (R : LLMRouter) (stage prompt system model : Str)
    (meta : MetaD) : LLMRequest :=
  { stage := stage, prompt := prompt, system := system, model := model,
    temperature := R.config.temperature, max_tokens := R.config.max_tokens,
    timeout_seconds := R.config.timeout_seconds, meta := meta }

/-- The route loop of `LLMRouter.generate`: accumulated error strings in
the second list argument; a success logs one `llm_calls` row and returns
immediately; a malformed route raises `ValueError` out of the loop. -/
def LLMRouter.generateLoop (R : LLMRouter) (stage prompt system : Str) (meta : MetaD)
    (db : DB) : List Str → List Str → DB × Except GenErr LLMResult
  | [], errors =>
    (db, .error (.providerError ("All provider routes failed: ".toList ++ joinBar errors)))
  | route :: rest, errors =>
    match parse_route route with
    | none => (db, .error (.valueError ("Invalid route format: ".toList ++ route)))
    | some (provider_name, model) =>
      match alookup R.providers provider_name with
      | none =>
        LLMRouter.generateLoop R stage prompt system meta db rest
          (errors ++ [route ++ ": provider not available".toList])
      | some provider =>
        match provider (LLMRouter.mkRequest R stage prompt system model meta) with
        | .ok result =>
          let cost := LLMRouter.estimateCost R.config result.provider result.model
            result.tokens_in result.tokens_out
          let (db', _) := log_llm_call db stage result.provider result.model
            result.tokens_in result.tokens_out cost result.latency_ms meta
          (db', .ok result)
        | .error e =>
          LLMRouter.generateLoop R stage prompt system meta db rest
            (errors ++ [route ++ ": ".toList ++ e])

/-- `LLMRouter.generate`. -/
def LLMRouter.generate (R : LLMRouter) (db : DB) (stage prompt system : Str)
    (meta : MetaD) : DB × Except GenErr LLMResult :=
  let routes := R.routesForStage stage
  if routes.isEmpty then
    (db, .error (.providerError
      ("No routes configured for stage '".toList ++ stage ++ "'".toList)))
  else LLMRouter.generateLoop R stage prompt system meta db routes []

/-- The style bundle the orchestrator receives: the style contract and the
per-platform templates (`style_context["templates"][platform]`). -/
structure StyleContext where
  contract : Str
  templates : Str → Str

/-- `prompts.build_summary_prompt`. -/
def build_summary_prompt (entry_text : Str) : Str :=
  "Summarize this diary entry in 2-3 sentences. Preserve concrete facts, remove fluff, and do not invent details.\n\nDiary entry:\n".toList
    ++ entry_text

/-- `prompts.build_system_prompt`. -/
def build_system_prompt (style_contract : Str) : Str :=
  "You are a social writing assistant. Follow this style contract exactly when possible:\n\n".toList
    ++ style_contract

/-- The opening-brace character of a format field. -/
def openBrace : Char := Char.ofNat 123

/-- The closing-brace character of a format field. -/
def closeBrace : Char := Char.ofNat 125

/-- Python `template.format_map(_SafeDict(...))` restricted to the plain
named fields the style templates use: scans for brace-delimited keys and
substitutes, leaving unknown fields intact (the `_SafeDict` behaviour).
The second argument carries the partially read key while inside a field. -/
def formatMapAux (vars : List (Str × Str)) : Str → Option Str → Str
  | [], none => []
  | [], some acc => openBrace :: acc.reverse
  | c :: rest, none =>
    if c = openBrace then formatMapAux vars rest (some [])
    else c :: formatMapAux vars rest none
  | c :: rest, some acc =>
    if c = closeBrace then
      ((alookup vars acc.reverse).getD
          (openBrace :: acc.reverse ++ [closeBrace]))
        ++ formatMapAux vars rest none
    else formatMapAux vars rest (some (c :: acc))

/-- `prompts.build_draft_prompt`. -/
def build_draft_prompt (platform entry_text summary style_template : Str)
    (is_strict : Bool) (limit : Int) : Str :=
  let strict_rules :=
    if is_strict then
      "Hard limit: ".toList ++ (toString limit).toList ++
        " chars. Use conservative wording, no risky claims.".toList
    else
      "Hard limit: ".toList ++ (toString limit).toList ++
        " chars. Keep tone natural and practical.".toList
  formatMapAux
    [("entry_text".toList, entry_text), ("summary".toList, summary),
      ("strict_rules".toList, strict_rules), ("platform".toList, platform),
      ("char_limit".toList, (toString limit).toList)]
    style_template none

/-- `orchestrator.enabled_platforms`. -/
def enabled_platforms (config : Config) : List Str :=
  (if config.x_enabled then ["x".toList] else []) ++
    (if config.threads_enabled then ["threads".toList] else []) ++
      (if config.linkedin_enabled then ["linkedin".toList] else [])

/-- `orchestrator.effective_dry_run`. -/
def effective_dry_run (db : DB) (config : Config) : Bool :=
  get_global_setting_dry_run db config.dry_run

/-- Result dict of `orchestrator.ingest_entry`. -/
structure IngestRes where
  ok : Bool
  reason : Option Str := none
  entry : Option Entry := none
deriving DecidableEq

/-- `orchestrator.ingest_entry`. -/
def ingest_entry (db : DB) (user_id entry_text : Str) (flags : MetaD)
    (source : Str) : DB × IngestRes :=
  let cleaned := pyStrip entry_text
  if cleaned.isEmpty then
    (db, { ok := false, reason := some "empty".toList, entry := none })
  else
    let text_hash := hash_text cleaned
    match get_entry_by_hash db user_id text_hash with
    | some existing =>
      (db, { ok := false, reason := some "duplicate".toList, entry := some existing })
    | none =>
      let (db1, entry) := create_entry db user_id cleaned text_hash source flags
      let db2 := create_undo_action db1 user_id "entry_create".toList
        [("entry_id".toList, .n entry.id)]
      (db2, { ok := true, reason := none, entry := some entry })

/-- `orchestrator.summarize_entry`. The `Except` error channel carries the
exceptions the Python lets escape: the `ValueError` for an unknown entry
id, and any `ValueError` of `parse_route` propagating through the router
(only `ProviderError` is caught). -/
def summarize_entry (db : DB) (config : Config) (router : Option LLMRouter)
    (style : StyleContext) (entry_id : Nat) : DB × Except Str (Str × StageMeta) :=
  match get_entry db entry_id with
  | none => (db, .error ("Entry not found: ".toList ++ (toString entry_id).toList))
  | some entry =>
    let text := entry.text
    let fallbackMeta : StageMeta :=
      { mode := "fallback".toList, stage := "summarize".toList,
        reason := some "llm_disabled_or_router_missing".toList }
    if config.llm_enabled = false then (db, .ok (text.take 300, fallbackMeta))
    else
      match router with
      | none => (db, .ok (text.take 300, fallbackMeta))
      | some R =>
        let system := build_system_prompt style.contract
        let prompt := build_summary_prompt text
        match R.generate db "summarize".toList prompt system
            [("entry_id".toList, .n entry_id)] with
        | (db', .ok result) =>
          (db', .ok (if result.text.isEmpty then text.take 300 else result.text,
            { mode := "llm".toList, stage := "summarize".toList,
              provider := some result.provider, model := some result.model }))
        | (db', .error (.providerError msg)) =>
          (db', .ok (text.take 300,
            { mode := "fallback".toList, stage := "summarize".toList,
              reason := some (msg.take 240) }))
        | (db', .error (.valueError msg)) => (db', .error msg)

/-- `orchestrator._deterministic_draft`. -/
def deterministic_draft (platform summary entry_text : Str) (limit : Int) : Str :=
  let body := if summary.isEmpty then entry_text else summary
  truncate_to_limit ('[' :: pyUpper platform ++ "] ".toList ++ body) limit

/-- `orchestrator._stage_for_platform`. -/
def stage_for_platform (platform : Str) : Str :=
  "draft_".toList ++ platform

/-- The per-platform body of the `generate_drafts` loop: generation (LLM or
deterministic fallback), validation with at most one LLM retry, the
unconditional truncation backstop, then the `pending` draft row and its
`draft_create` undo record. The `Except` channel propagates the router's
uncaught `ValueError`s. -/
def genOnePlatform (config : Config) (router : Option LLMRouter)
    (style : StyleContext) (entry : Entry) (summary : Str)
    (summary_meta : StageMeta) (is_strict : Bool) (system : Str) (db : DB)
    (platform : Str) : DB × Except Str (Draft × Validation) :=
  let limit := get_limit config platform
  let step1 : DB × Except Str (Str × StageMeta) :=
    if config.llm_enabled then
      match router with
      | some R =>
        let prompt := build_draft_prompt platform entry.text summary
          (style.templates platform) is_strict limit
        match R.generate db (stage_for_platform platform) prompt system
            [("entry_id".toList, .n entry.id), ("platform".toList, .s platform),
              ("strict".toList, .b is_strict)] with
        | (db', .ok result) =>
          (db', .ok (pyStrip result.text,
            { mode := "llm".toList, stage := stage_for_platform platform,
              provider := some result.provider, model := some result.model }))
        | (db', .error (.providerError _)) =>
          (db', .ok (deterministic_draft platform summary entry.text limit,
            { mode := "fallback".toList, stage := stage_for_platform platform,
              reason := some "provider_error".toList }))
        | (db', .error (.valueError msg)) => (db', .error msg)
      | none =>
        (db, .ok (deterministic_draft platform summary entry.text limit,
          { mode := "fallback".toList, stage := stage_for_platform platform,
            reason := some "llm_disabled_or_router_missing".toList }))
    else
      (db, .ok (deterministic_draft platform summary entry.text limit,
        { mode := "fallback".toList, stage := stage_for_platform platform,
          reason := some "llm_disabled_or_router_missing".toList }))
  match step1 with
  | (db1, .error msg) => (db1, .error msg)
  | (db1, .ok (content0, generation_meta)) =>
    let validation0 := validate_draft platform content0 config
    let step2 : DB × Except Str (Str × Validation) :=
      if validation0.ok then (db1, .ok (content0, validation0))
      else
        match router with
        | some R =>
          if config.llm_enabled then
            let retry_prompt :=
              "Rewrite this ".toList ++ platform ++ " draft under ".toList ++
                (toString limit).toList ++
                " chars without losing the core meaning.\n\nOriginal draft:\n".toList ++
                content0
            match R.generate db1 (stage_for_platform platform) retry_prompt system
                [("entry_id".toList, .n entry.id), ("platform".toList, .s platform),
                  ("retry".toList, .b true)] with
            | (db2, .ok r) =>
              let c := pyStrip r.text
              (db2, .ok (c, validate_draft platform c config))
            | (db2, .error (.providerError _)) =>
              let c := truncate_to_limit content0 limit
              (db2, .ok (c, validate_draft platform c config))
            | (db2, .error (.valueError msg)) => (db2, .error msg)
          else (db1, .ok (content0, validation0))
        | none => (db1, .ok (content0, validation0))
    match step2 with
    | (db2, .error msg) => (db2, .error msg)
    | (db2, .ok (content1, validation1)) =>
      let final :=
        if validation1.ok then (content1, validation1)
        else
          let c := truncate_to_limit content1 limit
          (c, validate_draft platform c config)
      let (db3, draft) := create_draft db2 entry.id platform final.1 "pending".toList
        { summary := some summary, summary_meta := some summary_meta,
          generation := some generation_meta, strict := some is_strict,
          validation := some final.2 }
      let db4 := create_undo_action db3 entry.user_id "draft_create".toList
        [("draft_id".toList, .n draft.id)]
      (db4, .ok (draft, final.2))

/-- The `for platform in platform_list` loop of `generate_drafts`:
platforms outside `PLATFORMS` are skipped (`continue`). -/
def genLoop (config : Config) (router : Option LLMRouter) (style : StyleContext)
    (entry : Entry) (summary : Str) (summary_meta : StageMeta) (is_strict : Bool)
    (system : Str) : DB → List Str → DB × Except Str (List (Draft × Validation))
  | db, [] => (db, .ok [])
  | db, platform :: rest =>
    if platform ∈ PLATFORMS then
      match genOnePlatform config router style entry summary summary_meta is_strict
          system db platform with
      | (db1, .error msg) => (db1, .error msg)
      | (db1, .ok dv) =>
        match genLoop config router style entry summary summary_meta is_strict
            system db1 rest with
        | (db2, .error msg) => (db2, .error msg)
        | (db2, .ok rest') => (db2, .ok (dv :: rest'))
    else genLoop config router style entry summary summary_meta is_strict system db rest

/-- Result dict of `orchestrator.generate_drafts`. -/
structure GenDraftsRes where
  ok : Bool
  reason : Option Str := none
  summary : Option Str := none
  drafts : List (Draft × Validation) := []
deriving DecidableEq

/-- `orchestrator.generate_drafts`. `platforms or enabled_platforms(config)`:
an absent or empty list falls back to the enabled platforms. -/
def generate_drafts (db : DB) (config : Config) (router : Option LLMRouter)
    (style : StyleContext) (entry_id : Nat) (platforms : Option (List Str))
    (is_strict : Bool) : DB × Except Str GenDraftsRes :=
  match get_entry db entry_id with
  | none => (db, .ok { ok := false, reason := some "entry_not_found".toList })
  | some entry =>
    let platform_list :=
      match platforms with
      | some ps => if ps.isEmpty then enabled_platforms config else ps
      | none => enabled_platforms config
    match summarize_entry db config router style entry_id with
    | (db1, .error msg) => (db1, .error msg)
    | (db1, .ok (summary, summary_meta)) =>
      let system := build_system_prompt style.contract
      match genLoop config router style entry summary summary_meta is_strict system
          db1 platform_list with
      | (db2, .error msg) => (db2, .error msg)
      | (db2, .ok dvs) =>
        (db2, .ok { ok := true, reason := none, summary := some summary, drafts := dvs })

/-- A platform client's `publish(content, dry_run)` capability: returns a
response payload or raises (modelled by `Except` with the error text). -/
abbrev Client := Str → Bool → Except Str Str

/-- The `clients` mapping platform name to client. -/
abbrev Clients := List (Str × Client)

/-- Result dict of `orchestrator.publish_draft`. -/
structure PubRes where
  ok : Bool
  reason : Option Str := none
  draft_id : Option Nat := none
  platform : Option Str := none
  validation : Option Validation := none
  response : Option Str := none
  error : Option Str := none
  dry_run : Option Bool := none
deriving DecidableEq

/-- `orchestrator.publish_draft`. -/
def publish_draft (db : DB) (config : Config) (draft_id : Nat) (clients : Clients)
    (force : Bool) : DB × PubRes :=
  match get_draft db draft_id with
  | none => (db, { ok := false, reason := some "draft_not_found".toList })
  | some draft =>
    if config.approval_required ∧ force = false ∧
        ¬(draft.status = "approved".toList ∨ draft.status = "scheduled".toList) then
      (db, { ok := false, reason := some "approval_required".toList,
             draft_id := some draft.id, platform := some draft.platform })
    else
      let validation := validate_draft draft.platform draft.content config
      if validation.ok then
        let dry_run := effective_dry_run db config
        match alookup clients draft.platform with
        | none =>
          (db, { ok := false, reason := some "missing_platform_client".toList,
                 draft_id := some draft.id, platform := some draft.platform })
        | some client =>
          match client draft.content dry_run with
          | .ok response =>
            let (db1, _) := create_publish_log db draft.id draft.platform true
              (some response) none
            let (db2, _) := update_draft_status db1 draft.id "published".toList none
            (db2, { ok := true, draft_id := some draft.id,
                    platform := some draft.platform, response := some response,
                    dry_run := some dry_run })
          | .error exc =>
            let (db1, _) := create_publish_log db draft.id draft.platform false
              none (some exc)
            (db1, { ok := false, reason := some "publish_failed".toList,
                    error := some exc, dry_run := some dry_run,
                    draft_id := some draft.id, platform := some draft.platform })
      else
        (db, { ok := false, reason := some "invalid_draft".toList,
               validation := some validation, draft_id := some draft.id,
               platform := some draft.platform })

/-- Result dict of `orchestrator.run_scheduler_once`. -/
structure SchedRes where
  ok : Bool
  count : Nat
  results : List PubRes
deriving DecidableEq

/-- The `for draft in due` loop of `run_scheduler_once`: each due row is
published with `force=True`. -/
def sweepLoop (config : Config) (clients : Clients) :
    DB → List Draft → DB × List PubRes
  | db, [] => (db, [])
  | db, d :: rest =>
    let step := publish_draft db config d.id clients true
    let next := sweepLoop config clients step.1 rest
    (next.1, step.2 :: next.2)

/-- `orchestrator.run_scheduler_once`. -/
def run_scheduler_once (db : DB) (config : Config) (now_iso : Str)
    (clients : Clients) : DB × SchedRes :=
  let due := list_due_scheduled_drafts db now_iso
  let swept := sweepLoop config clients db due
  (swept.1, { ok := true, count := swept.2.length, results := swept.2 })

/-- A route fails in the sense of the router loop: it parses, and either
its provider is not registered or the provider call raises. -/
def routeFailsFor (R : LLMRouter) (stage prompt system : Str) (meta : MetaD)
    (route : Str) : Prop :=
  ∃ pn m, parse_route route = some (pn, m) ∧
    (alookup R.providers pn = none ∨
      ∃ p e, alookup R.providers pn = some p ∧
        p (LLMRouter.mkRequest R stage prompt system m meta) = .error e)

/-- A route fails, recording the exact error string the loop appends for it. -/
def routeFailMsg (R : LLMRouter) (stage prompt system : Str) (meta : MetaD)
    (route msg : Str) : Prop :=
  ∃ pn m, parse_route route = some (pn, m) ∧
    ((alookup R.providers pn = none ∧
        msg = route ++ ": provider not available".toList) ∨
      ∃ p e, alookup R.providers pn = some p ∧
        p (LLMRouter.mkRequest R stage prompt system m meta) = .error e ∧
        msg = route ++ ": ".toList ++ e)

/-- A router whose every `generate` call raises `ProviderError` and leaves
the store untouched — the behaviour produced by every configured route
failing (or by no routes being configured). -/
def routerAlwaysProviderFails (R : LLMRouter) : Prop :=
  ∀ db stage prompt system meta, ∃ msg,
    R.generate db stage prompt system meta = (db, .error (.providerError msg))

/-- Fixture: a provider that always succeeds with a fixed result. -/
def okResult : LLMResult :=
  { text := "y".toList, provider := "ok".toList, model := "y".toList }

/-- Fixture: the always-succeeding provider. -/
def okProvider : Provider := fun _ => .ok okResult

/-- Fixture: a router whose stage `s` routes are a malformed route followed
by a working one. -/
def R_bad : LLMRouter :=
  { config := { routing := [("s".toList, ["bad".toList, "ok:y".toList])] },
    providers := [("ok".toList, okProvider)] }

/-- Fixture: a router whose only route for stage `s` names an unregistered
provider. -/
def R_fail : LLMRouter :=
  { config := { routing := [("s".toList, ["p:m".toList])] }, providers := [] }

/-- Fixture: a router with one failing route before a working one. -/
def R_mix : LLMRouter :=
  { config := { routing := [("s".toList, ["p:m".toList, "ok:y".toList])],
                pricing := [("ok:y".toList, { input_per_1k := 3, output_per_1k := 7 })] },
    providers := [("ok".toList, okProvider)] }

/-- Fixture: a router with no routes configured for any stage, so every
call raises `ProviderError` (`No routes configured`). -/
def R_none : LLMRouter :=
  { config := {} }

/-- Fixture: an empty style bundle. -/
def styleW : StyleContext :=
  { contract := [], templates := fun _ => [] }

/-- Fixture: a stored entry for user `u1`. -/
def eW : Entry :=
  { id := 1, user_id := "u1".toList, created_at := [], text := "Hello world".toList,
    text_hash := hash_text ("Hello world".toList), source := "telegram".toList,
    flags := [] }

/-- Fixture: a store holding just `eW`. -/
def dbW : DB :=
  { entries := [eW], next_entry_id := 2 }

/-- Fixture: a pending draft. -/
def draftP : Draft :=
  { id := 1, entry_id := 1, platform := "x".toList, created_at := [],
    content := "Hi".toList, status := "pending".toList, scheduled_at := none,
    meta := {}, version := 1 }

/-- Fixture: a store holding just `draftP`. -/
def dbP : DB :=
  { drafts := [draftP], next_draft_id := 2 }

/-- Fixture: an approved draft. -/
def draftA : Draft :=
  { draftP with status := "approved".toList }

/-- Fixture: a store holding just `draftA`. -/
def dbA : DB :=
  { drafts := [draftA], next_draft_id := 2 }

/-- Fixture: a scheduled draft, due at `2024`. -/
def draftS : Draft :=
  { draftP with status := "scheduled".toList, scheduled_at := some "2024".toList }

/-- Fixture: a store holding just `draftS`. -/
def dbS : DB :=
  { drafts := [draftS], next_draft_id := 2 }

/-- Fixture: a client whose publish always succeeds. -/
def okClient : Client := fun _ _ => .ok ("resp".toList)

/-- Fixture: a client whose publish always raises. -/
def failClient : Client := fun _ _ => .error ("boom".toList)

/-- Fixture: clients map with a working `x` client. -/
def clientsOk : Clients := [("x".toList, okClient)]

/-- Fixture: clients map with a failing `x` client. -/
def clientsFail : Clients := [("x".toList, failClient)]

/-- Fixture: a configuration with a one-character `x` limit. -/
def cfgTiny : Config :=
  { platform_limits := [("x_max_chars".toList, 1)] }

/-! ### Helper lemmas -/

theorem length_rstrip_le (s : Str) : (rstrip s).length ≤ s.length := by
  unfold rstrip
  calc (s.reverse.dropWhile Char.isWhitespace).reverse.length
      = (s.reverse.dropWhile Char.isWhitespace).length := List.length_reverse _
    _ ≤ s.reverse.length := (List.dropWhile_sublist _).length_le
    _ = s.length := List.length_reverse _

theorem truncate_to_limit_length_le (content : Str) (limit : Int) (h : 0 ≤ limit) :
    ((truncate_to_limit content limit).length : Int) ≤ limit := by
  unfold truncate_to_limit
  split
  next h1 => exact h1
  next h1 =>
    split
    next h2 =>
      unfold pySliceTo
      rw [if_pos h]
      have hlen : (content.take limit.toNat).length ≤ limit.toNat := by
        simp [List.length_take]
      omega
    next h2 =>
      rw [List.length_append]
      have h3 : (rstrip (content.take (limit - 3).toNat)).length ≤ (limit - 3).toNat :=
        le_trans (length_rstrip_le _) (by simp [List.length_take])
      have h4 : ("...".toList).length = 3 := rfl
      omega

/-! ### C8 — truncate_to_limit -/

/-- C8 fails as stated: the claim quantifies over every integer limit, but
for a negative limit Python's `content[:limit]` drops characters from the
end, so `truncate_to_limit("ab", -1)` returns `"a"`, whose length 1
exceeds the limit `-1` (and is not "the first -1 characters"). -/
theorem C8_counterexample :
    truncate_to_limit ("ab".toList) (-1) = "a".toList ∧
    ¬(((truncate_to_limit ("ab".toList) (-1)).length : Int) ≤ -1) := by
  constructor
  · decide
  · decide

/-- C8 (amended to nonnegative limits): for every string and every
nonnegative integer limit, `truncate_to_limit` returns the text unchanged
when it fits; returns the first `limit` characters when `limit ≤ 3`;
otherwise returns the first `limit - 3` characters with trailing
whitespace trimmed followed by `"..."`, which is then a suffix of the
result; and in all cases the result's length never exceeds the limit. -/
theorem C8_truncate_to_limit_spec (text : Str) (limit : Int) (h : 0 ≤ limit) :
    (((text.length : Int) ≤ limit → truncate_to_limit text limit = text) ∧
      (limit < (text.length : Int) → limit ≤ 3 →
        truncate_to_limit text limit = text.take limit.toNat) ∧
      (limit < (text.length : Int) → 3 < limit →
        truncate_to_limit text limit =
          rstrip (text.take (limit - 3).toNat) ++ "...".toList ∧
        "...".toList <:+ truncate_to_limit text limit) ∧
      ((truncate_to_limit text limit).length : Int) ≤ limit) := by
  refine ⟨?_, ?_, ?_, truncate_to_limit_length_le text limit h⟩
  · intro hle
    unfold truncate_to_limit
    rw [if_pos hle]
  · intro hgt hle3
    unfold truncate_to_limit pySliceTo
    rw [if_neg (by omega), if_pos hle3, if_pos h]
  · intro hgt hgt3
    unfold truncate_to_limit
    rw [if_neg (by omega), if_neg (by omega)]
    exact ⟨rfl, List.suffix_append _ _⟩

/-- C8 witness: a concrete truncation at limit 8. -/
theorem C8_truncate_to_limit_spec_witness :
    truncate_to_limit ("hello world".toList) 8 = "hello...".toList ∧
    ((truncate_to_limit ("hello world".toList) 8).length : Int) ≤ 8 :=
  ⟨by decide, (C8_truncate_to_limit_spec ("hello world".toList) 8 (by decide)).2.2.2⟩

/-! ### C7 — ingest_entry -/

/-- C7: `ingest_entry` rejects text that is empty after trimming with
`reason=empty`; rejects a text whose normalized hash matches an existing
entry of the same user with `reason=duplicate`, returning that entry and
storing nothing; and otherwise persists exactly one new entry plus one
`entry_create` undo record and returns `ok=true`. Dedupe is scoped by
user (`get_entry_by_hash` is keyed on user and hash), so the same text
ingested by a different user hits the third branch and succeeds. -/
theorem C7_ingest_entry_spec :
    (∀ (db : DB) (u t : Str) (flags : MetaD) (src : Str), pyStrip t = [] →
      ingest_entry db u t flags src =
        (db, { ok := false, reason := some "empty".toList, entry := none })) ∧
    (∀ (db : DB) (u t : Str) (flags : MetaD) (src : Str) (ex : Entry),
      pyStrip t ≠ [] →
      get_entry_by_hash db u (hash_text (pyStrip t)) = some ex →
      ingest_entry db u t flags src =
        (db, { ok := false, reason := some "duplicate".toList, entry := some ex })) ∧
    (∀ (db : DB) (u t : Str) (flags : MetaD) (src : Str),
      pyStrip t ≠ [] →
      get_entry_by_hash db u (hash_text (pyStrip t)) = none →
      ingest_entry db u t flags src =
        ({ db with
            entries := db.entries ++
              [{ id := db.next_entry_id, user_id := u, created_at := db.now,
                 text := pyStrip t, text_hash := hash_text (pyStrip t),
                 source := src, flags := flags }],
            next_entry_id := db.next_entry_id + 1,
            undo_actions := db.undo_actions ++
              [{ id := db.next_undo_id, user_id := u,
                 action_type := "entry_create".toList,
                 payload := [("entry_id".toList, .n db.next_entry_id)],
                 created_at := db.now, undone := false }],
            next_undo_id := db.next_undo_id + 1 },
          { ok := true, reason := none,
            entry := some
              { id := db.next_entry_id, user_id := u, created_at := db.now,
                text := pyStrip t, text_hash := hash_text (pyStrip t),
                source := src, flags := flags } })) := by
  refine ⟨?_, ?_, ?_⟩
  · intro db u t flags src h
    unfold ingest_entry
    rw [h]
    rfl
  · intro db u t flags src ex h hdup
    unfold ingest_entry
    rw [if_neg (by simp [h])]
    simp only [hdup]
  · intro db u t flags src h hnone
    unfold ingest_entry
    rw [if_neg (by simp [h])]
    simp only [hnone]
    rfl

/-- C7 witness: trimming-empty text is rejected; re-ingesting text that
normalizes like `eW.text` for the same user `u1` is a duplicate; the same
text for user `u2` succeeds. -/
theorem C7_ingest_entry_spec_witness :
    ingest_entry dbW ("u1".toList) ("   ".toList) [] ("telegram".toList) =
      (dbW, { ok := false, reason := some "empty".toList, entry := none }) ∧
    ingest_entry dbW ("u1".toList) (" Hello   WORLD ".toList) [] ("telegram".toList) =
      (dbW, { ok := false, reason := some "duplicate".toList, entry := some eW }) ∧
    (ingest_entry dbW ("u2".toList) (" Hello   WORLD ".toList) [] ("telegram".toList)).2.ok
      = true := by
  refine ⟨?_, ?_, ?_⟩
  · exact C7_ingest_entry_spec.1 dbW ("u1".toList) ("   ".toList) [] ("telegram".toList)
      (by decide)
  · exact C7_ingest_entry_spec.2.1 dbW ("u1".toList) (" Hello   WORLD ".toList) []
      ("telegram".toList) eW (by decide) (by decide)
  · rw [C7_ingest_entry_spec.2.2 dbW ("u2".toList) (" Hello   WORLD ".toList) []
      ("telegram".toList) (by decide) (by decide)]

/-! ### Router lemmas -/

theorem generateLoop_skip_failing (R : LLMRouter) (stage prompt system : Str)
    (meta : MetaD) (db : DB) (pre : List Str)
    (hfail : ∀ r ∈ pre, routeFailsFor R stage prompt system meta r) :
    ∀ rest errors, ∃ errors2,
      LLMRouter.generateLoop R stage prompt system meta db (pre ++ rest) errors =
        LLMRouter.generateLoop R stage prompt system meta db rest errors2 := by
  induction pre with
  | nil => exact fun rest errors => ⟨errors, rfl⟩
  | cons r pre ih =>
    intro rest errors
    obtain ⟨pn, m, hparse, hcase⟩ := hfail r (by simp)
    have hfail2 : ∀ x ∈ pre, routeFailsFor R stage prompt system meta x :=
      fun x hx => hfail x (by simp [hx])
    rcases hcase with hnone | ⟨p, e, hp, he⟩
    · have hstep :
        LLMRouter.generateLoop R stage prompt system meta db ((r :: pre) ++ rest) errors =
          LLMRouter.generateLoop R stage prompt system meta db (pre ++ rest)
            (errors ++ [r ++ ": provider not available".toList]) := by
        simp only [List.cons_append, LLMRouter.generateLoop, hparse, hnone]
        rfl
      rw [hstep]
      exact ih hfail2 rest _
    · have hstep :
        LLMRouter.generateLoop R stage prompt system meta db ((r :: pre) ++ rest) errors =
          LLMRouter.generateLoop R stage prompt system meta db (pre ++ rest)
            (errors ++ [r ++ ": ".toList ++ e]) := by
        simp only [List.cons_append, LLMRouter.generateLoop, hparse, hp, he]
        rfl
      rw [hstep]
      exact ih hfail2 rest _

/-! ### C5 — router first success -/

/-- C5: when every route before some configured route fails (provider
unavailable or provider call raising) and that route's provider call
returns successfully, `LLMRouter.generate` returns that result and appends
exactly one `llm_calls` row — with cost `LLMRouter.estimateCost`, which
equals `(tokens_in/1000)*input_price + (tokens_out/1000)*output_price`
when the `provider:model` pricing key is present and `0` when it is
absent — and nothing else in the store changes (in particular the failed
routes log no usage row). The conclusion does not depend on the routes
after the successful one, so no later route is tried. -/
theorem C5_router_first_success (R : LLMRouter) (db : DB)
    (stage prompt system : Str) (meta : MetaD) (pre post : List Str)
    (route pn m : Str) (p : Provider) (result : LLMResult)
    (hroutes : R.routesForStage stage = pre ++ route :: post)
    (hfail : ∀ r ∈ pre, routeFailsFor R stage prompt system meta r)
    (hparse : parse_route route = some (pn, m))
    (hprov : alookup R.providers pn = some p)
    (hok : p (LLMRouter.mkRequest R stage prompt system m meta) = .ok result) :
    R.generate db stage prompt system meta =
      ({ db with
          llm_calls := db.llm_calls ++
            [{ id := db.next_llm_call_id, stage := stage,
               provider := result.provider, model := result.model,
               tokens_in := result.tokens_in, tokens_out := result.tokens_out,
               cost_usd := LLMRouter.estimateCost R.config result.provider
                 result.model result.tokens_in result.tokens_out,
               latency_ms := result.latency_ms, created_at := db.now, meta := meta }],
          next_llm_call_id := db.next_llm_call_id + 1 },
        .ok result) ∧
    (∀ pr, alookup R.config.pricing (result.provider ++ ':' :: result.model) = some pr →
      LLMRouter.estimateCost R.config result.provider result.model
          result.tokens_in result.tokens_out =
        ((result.tokens_in : Rat) / 1000) * pr.input_per_1k +
          ((result.tokens_out : Rat) / 1000) * pr.output_per_1k) ∧
    (alookup R.config.pricing (result.provider ++ ':' :: result.model) = none →
      LLMRouter.estimateCost R.config result.provider result.model
          result.tokens_in result.tokens_out = 0) := by
  refine ⟨?_, ?_, ?_⟩
  · unfold LLMRouter.generate
    simp only [hroutes]
    rw [if_neg (by simp [List.isEmpty_iff])]
    obtain ⟨errors2, hskip⟩ :=
      generateLoop_skip_failing R stage prompt system meta db pre hfail
        (route :: post) []
    rw [hskip]
    simp only [LLMRouter.generateLoop, hparse, hprov, hok]
    rfl
  · intro pr hpr
    unfold LLMRouter.estimateCost
    rw [hpr]
  · intro hpr
    unfold LLMRouter.estimateCost
    rw [hpr]

/-- C5 witness: a failing route (`p:m`, provider unregistered) followed by
a working route (`ok:y`): the first success is returned and one call-log
row is appended with the estimated cost. -/
theorem C5_router_first_success_witness :
    R_mix.generate {} ("s".toList) [] [] [] =
      ({ llm_calls :=
          [{ id := 1, stage := "s".toList, provider := "ok".toList,
             model := "y".toList, tokens_in := 0, tokens_out := 0,
             cost_usd := LLMRouter.estimateCost R_mix.config ("ok".toList)
               ("y".toList) 0 0,
             latency_ms := 0, created_at := [], meta := [] }],
          next_llm_call_id := 2 },
        .ok okResult) :=
  (C5_router_first_success R_mix {} ("s".toList) [] [] [] ["p:m".toList] []
    ("ok:y".toList) ("ok".toList) ("y".toList) okProvider okResult rfl
    (by
      intro r hr
      simp only [List.mem_singleton] at hr
      subst hr
      exact ⟨"p".toList, "m".toList, by decide, Or.inl rfl⟩)
    (by decide) rfl rfl).1

/-! ### C6 — router exhaustion -/

theorem generateLoop_all_fail (R : LLMRouter) (stage prompt system : Str)
    (meta : MetaD) (db : DB) :
    ∀ routes msgs errors,
      List.Forall₂ (routeFailMsg R stage prompt system meta) routes msgs →
      LLMRouter.generateLoop R stage prompt system meta db routes errors =
        (db, .error (.providerError
          ("All provider routes failed: ".toList ++ joinBar (errors ++ msgs)))) := by
  intro routes
  induction routes with
  | nil =>
    intro msgs errors h
    cases h
    simp [LLMRouter.generateLoop]
  | cons r rs ih =>
    intro msgs errors h
    cases h with
    | cons hmsg hrest =>
      obtain ⟨pn, m, hparse, hcase⟩ := hmsg
      rcases hcase with ⟨hnone, hmsgeq⟩ | ⟨p, e, hp, he, hmsgeq⟩
      · simp only [LLMRouter.generateLoop, hparse, hnone]
        rw [ih _ _ hrest, hmsgeq]
        simp
      · simp only [LLMRouter.generateLoop, hparse, hp, he]
        rw [ih _ _ hrest, hmsgeq]
        simp

theorem generateLoop_error_inv (R : LLMRouter) (stage prompt system : Str)
    (meta : MetaD) (db : DB) :
    ∀ routes errors db2 e,
      (∀ r ∈ routes, (parse_route r).isSome) →
      LLMRouter.generateLoop R stage prompt system meta db routes errors =
        (db2, .error e) →
      db2 = db ∧ (∀ r ∈ routes, routeFailsFor R stage prompt system meta r) ∧
        ∃ msg, e = .providerError msg := by
  intro routes
  induction routes with
  | nil =>
    intro errors db2 e _ h
    simp only [LLMRouter.generateLoop, Prod.mk.injEq, Except.error.injEq] at h
    obtain ⟨hdb, he⟩ := h
    exact ⟨hdb.symm, by simp, _, he.symm⟩
  | cons r rs ih =>
    intro errors db2 e hparse h
    obtain ⟨⟨pn, m⟩, hpm⟩ := Option.isSome_iff_exists.mp (hparse r (by simp))
    cases hprov : alookup R.providers pn with
    | none =>
      simp only [LLMRouter.generateLoop, hpm, hprov] at h
      obtain ⟨hdb, hall, hmsg⟩ := ih _ _ _ (fun x hx => hparse x (by simp [hx])) h
      refine ⟨hdb, ?_, hmsg⟩
      intro x hx
      rcases List.mem_cons.mp hx with hx | hx
      · subst hx
        exact ⟨pn, m, hpm, Or.inl hprov⟩
      · exact hall x hx
    | some p =>
      cases hcall : p (LLMRouter.mkRequest R stage prompt system m meta) with
      | ok result =>
        simp only [LLMRouter.generateLoop, hpm, hprov, hcall] at h
        exact absurd (congrArg Prod.snd h) (by simp)
      | error err =>
        simp only [LLMRouter.generateLoop, hpm, hprov, hcall] at h
        obtain ⟨hdb, hall, hmsg⟩ := ih _ _ _ (fun x hx => hparse x (by simp [hx])) h
        refine ⟨hdb, ?_, hmsg⟩
        intro x hx
        rcases List.mem_cons.mp hx with hx | hx
        · subst hx
          exact ⟨pn, m, hpm, Or.inr ⟨p, err, hprov, hcall⟩⟩
        · exact hall x hx

/-- C6 fails as stated: `generate` can raise outside the all-routes-
exhausted case. With routes `["bad", "ok:y"]` where the `ok` provider
would succeed, the malformed first route makes `parse_route` raise
`ValueError` (uncaught, not the aggregate `ProviderError`), even though a
later configured route succeeds. -/
theorem C6_counterexample :
    R_bad.routesForStage ("s".toList) = ["bad".toList, "ok:y".toList] ∧
    (LLMRouter.generate R_bad {} ("s".toList) [] [] []).2 =
      .error (.valueError ("Invalid route format: bad".toList)) ∧
    parse_route ("ok:y".toList) = some ("ok".toList, "y".toList) ∧
    alookup R_bad.providers ("ok".toList) = some okProvider ∧
    okProvider (LLMRouter.mkRequest R_bad ("s".toList) [] [] ("y".toList) []) =
      .ok okResult := by
  exact ⟨rfl, rfl, by decide, rfl, rfl⟩

/-- C6 (amended to well-formed routes): when every configured route for a
stage fails, `generate` raises a single aggregate `ProviderError` whose
message joins every per-route failure message, and logs no call-log row
(the store is unchanged); and — provided every configured route is
well-formed (`provider:model`) — whenever `generate` raises with at least
one route configured, the store is unchanged, every configured route
failed, and the error is the aggregate `ProviderError`. A malformed route
instead raises a route-format `ValueError` immediately. -/
theorem C6_router_exhausted_spec (R : LLMRouter) (db : DB)
    (stage prompt system : Str) (meta : MetaD) :
    (∀ msgs, R.routesForStage stage ≠ [] →
      List.Forall₂ (routeFailMsg R stage prompt system meta)
        (R.routesForStage stage) msgs →
      R.generate db stage prompt system meta =
        (db, .error (.providerError
          ("All provider routes failed: ".toList ++ joinBar msgs)))) ∧
    (∀ db2 e, R.routesForStage stage ≠ [] →
      (∀ r ∈ R.routesForStage stage, (parse_route r).isSome) →
      R.generate db stage prompt system meta = (db2, .error e) →
      db2 = db ∧
        (∀ r ∈ R.routesForStage stage, routeFailsFor R stage prompt system meta r) ∧
        ∃ msg, e = .providerError msg) := by
  constructor
  · intro msgs hne hall
    unfold LLMRouter.generate
    rw [if_neg (by simp [List.isEmpty_iff, hne])]
    rw [generateLoop_all_fail R stage prompt system meta db _ _ [] hall]
    simp
  · intro db2 e hne hparse h
    unfold LLMRouter.generate at h
    rw [if_neg (by simp [List.isEmpty_iff, hne])] at h
    exact generateLoop_error_inv R stage prompt system meta db _ _ _ _ hparse h

/-- C6 witness: a router whose single route `p:m` names an unregistered
provider raises the aggregate error containing that route's failure
message, leaves the store unchanged, and that route indeed failed. -/
theorem C6_router_exhausted_spec_witness :
    LLMRouter.generate R_fail {} ("s".toList) [] [] [] =
      ({}, .error (.providerError
        ("All provider routes failed: p:m: provider not available".toList))) ∧
    routeFailsFor R_fail ("s".toList) [] [] [] ("p:m".toList) := by
  have h1 := (C6_router_exhausted_spec R_fail {} ("s".toList) [] [] []).1
    ["p:m: provider not available".toList] (by decide)
    (List.Forall₂.cons
      ⟨"p".toList, "m".toList, by decide, Or.inl ⟨rfl, by decide⟩⟩
      List.Forall₂.nil)
  have h2 := (C6_router_exhausted_spec R_fail {} ("s".toList) [] [] []).2
    {} (.providerError ("All provider routes failed: p:m: provider not available".toList))
    (by decide) (by decide) (by rw [h1]; rfl)
  exact ⟨by rw [h1]; rfl, h2.2.1 ("p:m".toList) (by decide)⟩

/-! ### C9 — summarize_entry -/

/-- C9 fails as stated: the claim quantifies over every entry id, but for
an id not present in the store `summarize_entry` raises the `Entry not
found` `ValueError` regardless of configuration, rather than returning the
300-character fallback. -/
theorem C9_counterexample :
    summarize_entry {} { llm_enabled := false } none styleW 1 =
      ({}, .error ("Entry not found: 1".toList)) := by
  rfl

/-- C9 (amended to stored entries): for every entry id present in the
store, `summarize_entry` never raises: when generation is disabled, when
no router is supplied, or when the router raises `ProviderError`, it
returns the first 300 characters of the entry's raw text together with
fallback metadata recording the reason (the error text truncated to 240
characters in the provider-failure case). For an unknown id it raises the
entry-not-found error. -/
theorem C9_summarize_entry_fallback :
    (∀ (db : DB) (config : Config) (style : StyleContext) (entry_id : Nat)
        (entry : Entry) (router : Option LLMRouter),
      get_entry db entry_id = some entry →
      config.llm_enabled = false →
      summarize_entry db config router style entry_id =
        (db, .ok (entry.text.take 300,
          { mode := "fallback".toList, stage := "summarize".toList,
            reason := some "llm_disabled_or_router_missing".toList }))) ∧
    (∀ (db : DB) (config : Config) (style : StyleContext) (entry_id : Nat)
        (entry : Entry),
      get_entry db entry_id = some entry →
      summarize_entry db config none style entry_id =
        (db, .ok (entry.text.take 300,
          { mode := "fallback".toList, stage := "summarize".toList,
            reason := some "llm_disabled_or_router_missing".toList }))) ∧
    (∀ (db : DB) (config : Config) (style : StyleContext) (entry_id : Nat)
        (entry : Entry) (R : LLMRouter),
      get_entry db entry_id = some entry →
      config.llm_enabled = true →
      (∀ prompt system meta, ∃ msg,
        R.generate db ("summarize".toList) prompt system meta =
          (db, .error (.providerError msg))) →
      ∃ msg : Str, summarize_entry db config (some R) style entry_id =
        (db, .ok (entry.text.take 300,
          { mode := "fallback".toList, stage := "summarize".toList,
            reason := some (msg.take 240) }))) := by
  refine ⟨?_, ?_, ?_⟩
  · intro db config style entry_id entry router hent hllm
    unfold summarize_entry
    rw [hent]
    simp only [hllm]
    rfl
  · intro db config style entry_id entry hent
    unfold summarize_entry
    rw [hent]
    cases hllm : config.llm_enabled <;> simp
  · intro db config style entry_id entry R hent hllm hfail
    obtain ⟨msg, hmsg⟩ := hfail (build_summary_prompt entry.text)
      (build_system_prompt style.contract) [("entry_id".toList, .n entry_id)]
    refine ⟨msg, ?_⟩
    unfold summarize_entry
    rw [hent]
    simp only [hllm, Bool.true_eq_false, if_false, hmsg]

/-- C9 witness: with generation disabled the stored entry is summarized by
the 300-character fallback, and with a router whose every call raises
`ProviderError` the call still returns a value (no exception). -/
theorem C9_summarize_entry_fallback_witness :
    summarize_entry dbW { llm_enabled := false } none styleW 1 =
      (dbW, .ok (eW.text.take 300,
        { mode := "fallback".toList, stage := "summarize".toList,
          reason := some "llm_disabled_or_router_missing".toList })) ∧
    (summarize_entry dbW {} (some R_none) styleW 1).2.toOption.isSome = true := by
  constructor
  · exact C9_summarize_entry_fallback.1 dbW { llm_enabled := false } styleW 1 eW none
      (by decide) rfl
  · obtain ⟨msg, h⟩ := C9_summarize_entry_fallback.2.2 dbW {} styleW 1 eW R_none
      (by decide) rfl (fun prompt system meta => ⟨_, rfl⟩)
    rw [h]
    rfl

/-! ### Publish lemmas -/

theorem get_draft_id_eq {db : DB} {draft_id : Nat} {d : Draft}
    (h : get_draft db draft_id = some d) : d.id = draft_id := by
  have := List.find?_some h
  simpa using this

theorem publish_draft_success_eq {db : DB} {config : Config} {draft_id : Nat}
    {clients : Clients} {force : Bool} {draft : Draft} {client : Client} {resp : Str}
    (hd : get_draft db draft_id = some draft)
    (hgate : config.approval_required = false ∨ force = true ∨
      draft.status = "approved".toList ∨ draft.status = "scheduled".toList)
    (hval : (validate_draft draft.platform draft.content config).ok = true)
    (hcl : alookup clients draft.platform = some client)
    (hok : client draft.content (effective_dry_run db config) = .ok resp) :
    publish_draft db config draft_id clients force =
      ({ db with
          publish_logs := db.publish_logs ++
            [{ id := db.next_publish_log_id, draft_id := draft.id,
               platform := draft.platform, attempted_at := db.now,
               success := true, response := some resp, error := none }],
          next_publish_log_id := db.next_publish_log_id + 1,
          drafts := db.drafts.map (fun x =>
            if x.id = draft.id then
              { x with status := "published".toList, scheduled_at := none }
            else x) },
        { ok := true, draft_id := some draft.id, platform := some draft.platform,
          response := some resp, dry_run := some (effective_dry_run db config) }) := by
  have hg : ¬(config.approval_required = true ∧ force = false ∧
      ¬(draft.status = "approved".toList ∨ draft.status = "scheduled".toList)) := by
    rintro ⟨h1, h2, h3⟩
    rcases hgate with h | h | h | h
    · rw [h1] at h
      exact Bool.false_ne_true h.symm
    · rw [h2] at h
      exact Bool.false_ne_true h
    · exact h3 (Or.inl h)
    · exact h3 (Or.inr h)
  simp only [publish_draft, hd, hg, if_false, hval, if_true, hcl, hok,
    create_publish_log, update_draft_status]

theorem publish_draft_failed_eq {db : DB} {config : Config} {draft_id : Nat}
    {clients : Clients} {force : Bool} {draft : Draft} {client : Client} {exc : Str}
    (hd : get_draft db draft_id = some draft)
    (hgate : config.approval_required = false ∨ force = true ∨
      draft.status = "approved".toList ∨ draft.status = "scheduled".toList)
    (hval : (validate_draft draft.platform draft.content config).ok = true)
    (hcl : alookup clients draft.platform = some client)
    (hex : client draft.content (effective_dry_run db config) = .error exc) :
    publish_draft db config draft_id clients force =
      ({ db with
          publish_logs := db.publish_logs ++
            [{ id := db.next_publish_log_id, draft_id := draft.id,
               platform := draft.platform, attempted_at := db.now,
               success := false, response := none, error := some exc }],
          next_publish_log_id := db.next_publish_log_id + 1 },
        { ok := false, reason := some "publish_failed".toList, error := some exc,
          dry_run := some (effective_dry_run db config), draft_id := some draft.id,
          platform := some draft.platform }) := by
  have hg : ¬(config.approval_required = true ∧ force = false ∧
      ¬(draft.status = "approved".toList ∨ draft.status = "scheduled".toList)) := by
    rintro ⟨h1, h2, h3⟩
    rcases hgate with h | h | h | h
    · rw [h1] at h
      exact Bool.false_ne_true h.symm
    · rw [h2] at h
      exact Bool.false_ne_true h
    · exact h3 (Or.inl h)
    · exact h3 (Or.inr h)
  simp only [publish_draft, hd, hg, if_false, hval, if_true, hcl, hex,
    create_publish_log]

/-! ### C2 — publish gate -/

/-- C2: when approval is required, `force` is false, and the draft's
status is neither `approved` nor `scheduled`, `publish_draft` returns
`ok=false` with reason `approval_required` and leaves the store entirely
unchanged (no publish-log row, draft untouched); the conclusion holds for
every `clients` argument and does not mention it, so no platform client is
invoked. Likewise a draft that passes the gate but fails length validation
yields reason `invalid_draft` with the store unchanged and no client
consulted. -/
theorem C2_publish_draft_gate :
    (∀ (db : DB) (config : Config) (draft_id : Nat) (clients : Clients)
        (draft : Draft),
      get_draft db draft_id = some draft →
      config.approval_required = true →
      draft.status ≠ "approved".toList →
      draft.status ≠ "scheduled".toList →
      publish_draft db config draft_id clients false =
        (db, { ok := false, reason := some "approval_required".toList,
               draft_id := some draft.id, platform := some draft.platform })) ∧
    (∀ (db : DB) (config : Config) (draft_id : Nat) (clients : Clients)
        (force : Bool) (draft : Draft),
      get_draft db draft_id = some draft →
      (config.approval_required = false ∨ force = true ∨
        draft.status = "approved".toList ∨ draft.status = "scheduled".toList) →
      (validate_draft draft.platform draft.content config).ok = false →
      publish_draft db config draft_id clients force =
        (db, { ok := false, reason := some "invalid_draft".toList,
               validation := some (validate_draft draft.platform draft.content config),
               draft_id := some draft.id, platform := some draft.platform })) := by
  constructor
  · intro db config draft_id clients draft hd happ hs1 hs2
    have hg : config.approval_required = true ∧ True ∧
        ¬(draft.status = "approved".toList ∨ draft.status = "scheduled".toList) := by
      refine ⟨happ, trivial, ?_⟩
      rintro (h | h)
      · exact hs1 h
      · exact hs2 h
    simp only [publish_draft, hd]
    rw [if_pos hg]
  · intro db config draft_id clients force draft hd hgate hval
    have hg : ¬(config.approval_required = true ∧ force = false ∧
        ¬(draft.status = "approved".toList ∨ draft.status = "scheduled".toList)) := by
      rintro ⟨h1, h2, h3⟩
      rcases hgate with h | h | h | h
      · rw [h1] at h
        exact Bool.false_ne_true h.symm
      · rw [h2] at h
        exact Bool.false_ne_true h
      · exact h3 (Or.inl h)
      · exact h3 (Or.inr h)
    simp only [publish_draft, hd]
    rw [if_neg hg, hval, if_neg (by decide)]

/-- C2 witness: publishing the pending `draftP` without force under the
default (approval-required) configuration is rejected with no store
change; the approved `draftA` under a one-character limit is rejected as
`invalid_draft`. -/
theorem C2_publish_draft_gate_witness :
    publish_draft dbP {} 1 [] false =
      (dbP, { ok := false, reason := some "approval_required".toList,
              draft_id := some 1, platform := some "x".toList }) ∧
    publish_draft dbA cfgTiny 1 [] false =
      (dbA, { ok := false, reason := some "invalid_draft".toList,
              validation := some (validate_draft ("x".toList) ("Hi".toList) cfgTiny),
              draft_id := some 1, platform := some "x".toList }) := by
  constructor
  · exact C2_publish_draft_gate.1 dbP {} 1 [] draftP rfl rfl (by decide) (by decide)
  · exact C2_publish_draft_gate.2 dbA cfgTiny 1 [] false draftA rfl
      (Or.inr (Or.inr (Or.inl rfl))) (by decide)

/-! ### C3 — publish failure logging -/

/-- C3: for a draft in an allowed publish state that passes validation and
has a platform client, when the client's publish call raises,
`publish_draft` appends exactly one failed publish-log row carrying the
exception text, changes nothing else in the store (in particular the
draft's status and scheduled time are untouched), and returns `ok=false`
with reason `publish_failed` and the error text; being a total function of
the embedding, it propagates no exception. -/
theorem C3_publish_draft_failure (db : DB) (config : Config) (draft_id : Nat)
    (clients : Clients) (force : Bool) (draft : Draft) (client : Client) (exc : Str)
    (hd : get_draft db draft_id = some draft)
    (hgate : config.approval_required = false ∨ force = true ∨
      draft.status = "approved".toList ∨ draft.status = "scheduled".toList)
    (hval : (validate_draft draft.platform draft.content config).ok = true)
    (hcl : alookup clients draft.platform = some client)
    (hex : client draft.content (effective_dry_run db config) = .error exc) :
    publish_draft db config draft_id clients force =
      ({ db with
          publish_logs := db.publish_logs ++
            [{ id := db.next_publish_log_id, draft_id := draft.id,
               platform := draft.platform, attempted_at := db.now,
               success := false, response := none, error := some exc }],
          next_publish_log_id := db.next_publish_log_id + 1 },
        { ok := false, reason := some "publish_failed".toList, error := some exc,
          dry_run := some (effective_dry_run db config), draft_id := some draft.id,
          platform := some draft.platform }) :=
  publish_draft_failed_eq hd hgate hval hcl hex

/-- C3 witness: the approved `draftA` published through a client that
raises `boom` gets one failed log row and reason `publish_failed`. -/
theorem C3_publish_draft_failure_witness :
    publish_draft dbA {} 1 clientsFail false =
      ({ dbA with
          publish_logs :=
            [{ id := 1, draft_id := 1, platform := "x".toList, attempted_at := [],
               success := false, response := none, error := some "boom".toList }],
          next_publish_log_id := 2 },
        { ok := false, reason := some "publish_failed".toList,
          error := some "boom".toList, dry_run := some true, draft_id := some 1,
          platform := some "x".toList }) :=
  C3_publish_draft_failure dbA {} 1 clientsFail false draftA failClient
    ("boom".toList) rfl (Or.inr (Or.inr (Or.inl rfl))) (by decide) rfl rfl

/-! ### C10 — publish success frame -/

/-- C10: on a successful publish, exactly two fields of the draft's row
change — `status` becomes `published` and `scheduled_at` becomes null
(discarding any stored schedule, also under the scheduler's `force`) —
while `content`, `platform`, `version`, `entry_id`, `created_at` and
`meta` are untouched, as the update function shows; besides the mapped
draft row the store only gains the successful publish-log row. -/
theorem C10_publish_draft_success_frame (db : DB) (config : Config)
    (draft_id : Nat) (clients : Clients) (force : Bool) (draft : Draft)
    (client : Client) (resp : Str)
    (hd : get_draft db draft_id = some draft)
    (hgate : config.approval_required = false ∨ force = true ∨
      draft.status = "approved".toList ∨ draft.status = "scheduled".toList)
    (hval : (validate_draft draft.platform draft.content config).ok = true)
    (hcl : alookup clients draft.platform = some client)
    (hok : client draft.content (effective_dry_run db config) = .ok resp) :
    publish_draft db config draft_id clients force =
      ({ db with
          publish_logs := db.publish_logs ++
            [{ id := db.next_publish_log_id, draft_id := draft.id,
               platform := draft.platform, attempted_at := db.now,
               success := true, response := some resp, error := none }],
          next_publish_log_id := db.next_publish_log_id + 1,
          drafts := db.drafts.map (fun x =>
            if x.id = draft.id then
              { x with status := "published".toList, scheduled_at := none }
            else x) },
        { ok := true, draft_id := some draft.id, platform := some draft.platform,
          response := some resp, dry_run := some (effective_dry_run db config) }) :=
  publish_draft_success_eq hd hgate hval hcl hok

/-- C10 witness: publishing the scheduled `draftS` with force keeps its
content, platform and version, sets status `published`, and clears its
stored schedule. -/
theorem C10_publish_draft_success_frame_witness :
    publish_draft dbS {} 1 clientsOk true =
      ({ dbS with
          publish_logs :=
            [{ id := 1, draft_id := 1, platform := "x".toList, attempted_at := [],
               success := true, response := some "resp".toList, error := none }],
          next_publish_log_id := 2,
          drafts := [{ draftS with status := "published".toList, scheduled_at := none }] },
        { ok := true, draft_id := some 1, platform := some "x".toList,
          response := some "resp".toList, dry_run := some true }) := by
  rw [C10_publish_draft_success_frame dbS {} 1 clientsOk true draftS okClient
    ("resp".toList) rfl (Or.inr (Or.inl rfl)) (by decide) rfl rfl]
  rfl

/-! ### C1 — generate_drafts fallback -/

theorem summarize_entry_router_fails {db : DB} {config : Config}
    {style : StyleContext} {entry_id : Nat} {entry : Entry} {R : LLMRouter}
    (hent : get_entry db entry_id = some entry)
    (hllm : config.llm_enabled = true)
    (hfail : routerAlwaysProviderFails R) :
    ∃ sm : StageMeta, summarize_entry db config (some R) style entry_id =
      (db, .ok (entry.text.take 300, sm)) := by
  obtain ⟨msg, hmsg⟩ := hfail db ("summarize".toList)
    (build_summary_prompt entry.text) (build_system_prompt style.contract)
    [("entry_id".toList, .n entry_id)]
  refine ⟨{ mode := "fallback".toList, stage := "summarize".toList,
            reason := some (msg.take 240) }, ?_⟩
  unfold summarize_entry
  rw [hent]
  simp only [hllm, Bool.true_eq_false, if_false, hmsg]

theorem genOnePlatform_fallback (config : Config) (R : LLMRouter)
    (style : StyleContext) (entry : Entry) (summary : Str)
    (summary_meta : StageMeta) (is_strict : Bool) (system : Str) (db : DB)
    (platform : Str)
    (hllm : config.llm_enabled = true)
    (hfail : routerAlwaysProviderFails R)
    (hlim : 0 ≤ get_limit config platform) :
    ∃ (d : Draft) (u : UndoAction),
      genOnePlatform config (some R) style entry summary summary_meta is_strict
          system db platform =
        ({ db with drafts := db.drafts ++ [d],
                   next_draft_id := db.next_draft_id + 1,
                   undo_actions := db.undo_actions ++ [u],
                   next_undo_id := db.next_undo_id + 1 },
          .ok (d, validate_draft platform d.content config)) ∧
      d.status = "pending".toList ∧ d.platform = platform ∧
      ((d.content.length : Int) ≤ get_limit config platform) ∧
      (validate_draft platform d.content config).ok = true := by
  obtain ⟨msg1, h1⟩ := hfail db (stage_for_platform platform)
    (build_draft_prompt platform entry.text summary (style.templates platform)
      is_strict (get_limit config platform)) system
    [("entry_id".toList, .n entry.id), ("platform".toList, .s platform),
      ("strict".toList, .b is_strict)]
  have hlen : (((deterministic_draft platform summary entry.text
      (get_limit config platform)).length : Int) ≤ get_limit config platform) := by
    unfold deterministic_draft
    exact truncate_to_limit_length_le _ _ hlim
  have hok : (validate_draft platform
      (deterministic_draft platform summary entry.text (get_limit config platform))
      config).ok = true := by
    unfold validate_draft
    exact decide_eq_true hlen
  refine ⟨{ id := db.next_draft_id, entry_id := entry.id, platform := platform,
            created_at := db.now,
            content := deterministic_draft platform summary entry.text
              (get_limit config platform),
            status := "pending".toList, scheduled_at := none,
            meta := { summary := some summary, summary_meta := some summary_meta,
                      generation := some { mode := "fallback".toList,
                                           stage := stage_for_platform platform,
                                           reason := some "provider_error".toList },
                      strict := some is_strict,
                      validation := some (validate_draft platform
                        (deterministic_draft platform summary entry.text
                          (get_limit config platform)) config) },
            version := get_next_draft_version db entry.id platform },
          { id := db.next_undo_id, user_id := entry.user_id,
            action_type := "draft_create".toList,
            payload := [("draft_id".toList, .n db.next_draft_id)],
            created_at := db.now, undone := false }, ?_, rfl, rfl, hlen, hok⟩
  unfold genOnePlatform
  simp only [hllm, if_true, h1, hok, create_draft, create_undo_action]

theorem genLoop_fallback (config : Config) (R : LLMRouter) (style : StyleContext)
    (entry : Entry) (summary : Str) (summary_meta : StageMeta) (is_strict : Bool)
    (system : Str)
    (hllm : config.llm_enabled = true)
    (hfail : routerAlwaysProviderFails R) :
    ∀ (ps : List Str) (db : DB),
      (∀ p ∈ ps, p ∈ PLATFORMS → 0 ≤ get_limit config p) →
      ∃ dvs db2,
        genLoop config (some R) style entry summary summary_meta is_strict system
            db ps = (db2, .ok dvs) ∧
        db2.drafts = db.drafts ++ dvs.map Prod.fst ∧
        dvs.map (fun dv => dv.1.platform) =
          ps.filter (fun p => decide (p ∈ PLATFORMS)) ∧
        ∀ dv ∈ dvs, dv.1.status = "pending".toList ∧
          ((dv.1.content.length : Int) ≤ get_limit config dv.1.platform) ∧
          dv.2.ok = true := by
  intro ps
  induction ps with
  | nil =>
    intro db hlim
    exact ⟨[], db, rfl, by simp, by simp, by simp⟩
  | cons p ps ih =>
    intro db hlim
    by_cases hp : p ∈ PLATFORMS
    · obtain ⟨d, u, heq, hst, hplat, hle, hvok⟩ :=
        genOnePlatform_fallback config R style entry summary summary_meta is_strict
          system db p hllm hfail (hlim p (by simp) hp)
      obtain ⟨dvs, db2, hloop, hdrafts, hplats, hall⟩ :=
        ih ({ db with drafts := db.drafts ++ [d],
                      next_draft_id := db.next_draft_id + 1,
                      undo_actions := db.undo_actions ++ [u],
                      next_undo_id := db.next_undo_id + 1 })
          (fun q hq hq2 => hlim q (by simp [hq]) hq2)
      refine ⟨(d, validate_draft p d.content config) :: dvs, db2, ?_, ?_, ?_, ?_⟩
      · simp only [genLoop, hp, if_true, heq, hloop]
      · simp only [hdrafts, List.map_cons, List.append_assoc, List.cons_append,
          List.nil_append]
      · have hpd : decide (p ∈ PLATFORMS) = true := decide_eq_true hp
        simp [List.filter_cons, hpd, hplats, hplat]
      · intro dv hdv
        rcases List.mem_cons.mp hdv with hdv | hdv
        · subst hdv
          refine ⟨hst, ?_, hvok⟩
          show ((d.content.length : Int) ≤ get_limit config d.platform)
          rw [hplat]
          exact hle
        · exact hall dv hdv
    · obtain ⟨dvs, db2, hloop, hdrafts, hplats, hall⟩ :=
        ih db (fun q hq hq2 => hlim q (by simp [hq]) hq2)
      refine ⟨dvs, db2, ?_, hdrafts, ?_, hall⟩
      · simp only [genLoop, hp, if_false, hloop]
      · have hpd : decide (p ∈ PLATFORMS) = false := decide_eq_false hp
        simp only [List.filter_cons, hpd, Bool.false_eq_true, if_false]
        exact hplats

/-- C1: with an existing entry, generation enabled, and a router whose
every call raises `ProviderError` (the behaviour when every configured
route fails), `generate_drafts` still returns `ok=true`, never raises,
and appends to the store exactly one new `pending` draft per requested
platform within the supported enumeration, each with stored content no
longer than that platform's configured (nonnegative) character limit and
a passing validation — via the deterministic fallback plus truncation. -/
theorem C1_generate_drafts_fallback (db : DB) (config : Config) (R : LLMRouter)
    (style : StyleContext) (entry_id : Nat) (entry : Entry) (ps : List Str)
    (is_strict : Bool)
    (hent : get_entry db entry_id = some entry)
    (hllm : config.llm_enabled = true)
    (hfail : routerAlwaysProviderFails R)
    (hps : ps ≠ [])
    (hlim : ∀ p ∈ ps, p ∈ PLATFORMS → 0 ≤ get_limit config p) :
    ∃ db2 res,
      generate_drafts db config (some R) style entry_id (some ps) is_strict =
        (db2, .ok res) ∧
      res.ok = true ∧
      res.summary = some (entry.text.take 300) ∧
      db2.drafts = db.drafts ++ res.drafts.map Prod.fst ∧
      res.drafts.map (fun dv => dv.1.platform) =
        ps.filter (fun p => decide (p ∈ PLATFORMS)) ∧
      ∀ dv ∈ res.drafts, dv.1.status = "pending".toList ∧
        ((dv.1.content.length : Int) ≤ get_limit config dv.1.platform) ∧
        dv.2.ok = true := by
  obtain ⟨sm, hsum⟩ :=
    @summarize_entry_router_fails db config style entry_id entry R hent hllm hfail
  obtain ⟨dvs, db2, hloop, hdrafts, hplats, hall⟩ :=
    genLoop_fallback config R style entry (entry.text.take 300) sm is_strict
      (build_system_prompt style.contract) hllm hfail ps db hlim
  refine ⟨db2, { ok := true, reason := none,
                 summary := some (entry.text.take 300), drafts := dvs }, ?_,
    rfl, rfl, hdrafts, hplats, hall⟩
  unfold generate_drafts
  rw [hent]
  simp only [List.isEmpty_iff, hps, if_false, hsum, hloop]

/-- C1 witness: for the stored entry and a router with no usable routes
(every call raises `ProviderError`), requesting platform `x` produces a
successful result with exactly one draft. -/
theorem C1_generate_drafts_fallback_witness :
    ((generate_drafts dbW {} (some R_none) styleW 1 (some ["x".toList]) false).2.toOption.map
        GenDraftsRes.ok) = some true ∧
    ((generate_drafts dbW {} (some R_none) styleW 1 (some ["x".toList]) false).2.toOption.map
        (fun r => r.drafts.length)) = some 1 := by
  obtain ⟨db2, res, heq, hok, hsum, hdrafts, hplats, hall⟩ :=
    C1_generate_drafts_fallback dbW {} R_none styleW 1 eW ["x".toList] false
      (by decide) rfl (fun db stage prompt system meta => ⟨_, rfl⟩)
      (by decide) (by decide)
  have hlen : res.drafts.length = 1 := by
    have := congrArg List.length hplats
    simpa using this
  rw [heq]
  constructor
  · show some res.ok = some true
    rw [hok]
  · show some res.drafts.length = some 1
    rw [hlen]

/-! ### C4 — scheduler lemmas -/

theorem draft_filter_singleton {l : List Draft} {d : Draft}
    (hpw : l.Pairwise (fun a b => a.id ≠ b.id)) (hmem : d ∈ l) :
    l.filter (fun x => decide (x.id = d.id)) = [d] := by
  induction l with
  | nil => cases hmem
  | cons x xs ih =>
    rcases List.mem_cons.mp hmem with rfl | h
    · rw [List.filter_cons_of_pos (by simp)]
      have hnil : xs.filter (fun y => decide (y.id = d.id)) = [] := by
        rw [List.filter_eq_nil_iff]
        intro a ha
        simp only [decide_eq_true_eq]
        exact fun hEq => ((List.pairwise_cons.mp hpw).1 a ha) hEq.symm
      rw [hnil]
    · have hne : x.id ≠ d.id := (List.pairwise_cons.mp hpw).1 d h
      rw [List.filter_cons_of_neg (by simp [hne])]
      exact ih (List.pairwise_cons.mp hpw).2 h

theorem find?_eq_of_filter_singleton {α : Type} {p : α → Bool} {l : List α} {a : α}
    (h : l.filter p = [a]) : l.find? p = some a := by
  induction l with
  | nil => simp at h
  | cons x xs ih =>
    cases hx : p x with
    | true =>
      rw [List.filter_cons_of_pos hx] at h
      simp only [List.cons.injEq] at h
      obtain ⟨rfl, h2⟩ := h
      simp [List.find?, hx]
    | false =>
      rw [List.filter_cons_of_neg (by simp [hx])] at h
      simp only [List.find?, hx]
      exact ih h

theorem filter_map_upd_ne (l : List Draft) (j i : Nat) (hne : i ≠ j) :
    (l.map (fun x => if x.id = j then
        { x with status := "published".toList, scheduled_at := none } else x)).filter
      (fun x => decide (x.id = i)) =
    l.filter (fun x => decide (x.id = i)) := by
  induction l with
  | nil => rfl
  | cons x xs ih =>
    by_cases hx : x.id = j
    · rw [List.map_cons, if_pos hx,
        List.filter_cons_of_neg (by simp [hx, Ne.symm hne]),
        List.filter_cons_of_neg (by simp [hx, Ne.symm hne])]
      exact ih
    · rw [List.map_cons, if_neg hx]
      simp only [List.filter_cons, ih]

theorem filter_map_upd_self (l : List Draft) (j : Nat) :
    (l.map (fun x => if x.id = j then
        { x with status := "published".toList, scheduled_at := none } else x)).filter
      (fun x => decide (x.id = j)) =
    (l.filter (fun x => decide (x.id = j))).map (fun x => if x.id = j then
        { x with status := "published".toList, scheduled_at := none } else x) := by
  rw [List.filter_map]
  congr 1
  apply List.filter_congr
  intro x _
  by_cases hx : x.id = j
  · simp [Function.comp, hx]
  · simp [Function.comp, hx]

theorem map_id_map_upd (l : List Draft) (j : Nat) :
    (l.map (fun x => if x.id = j then
        { x with status := "published".toList, scheduled_at := none } else x)).map
      Draft.id = l.map Draft.id := by
  rw [List.map_map]
  apply List.map_congr_left
  intro x _
  by_cases hx : x.id = j
  · simp [Function.comp, hx]
  · simp [Function.comp, hx]

theorem publish_draft_frame (db : DB) (config : Config) (draft_id : Nat)
    (clients : Clients) (force : Bool) (i : Nat) (hne : i ≠ draft_id) :
    (publish_draft db config draft_id clients force).1.entries = db.entries ∧
    (publish_draft db config draft_id clients force).1.dry_run_setting =
      db.dry_run_setting ∧
    (publish_draft db config draft_id clients force).1.drafts.filter
        (fun x => decide (x.id = i)) =
      db.drafts.filter (fun x => decide (x.id = i)) ∧
    (publish_draft db config draft_id clients force).1.publish_logs.filter
        (fun l => decide (l.draft_id = i)) =
      db.publish_logs.filter (fun l => decide (l.draft_id = i)) ∧
    (publish_draft db config draft_id clients force).1.drafts.map Draft.id =
      db.drafts.map Draft.id := by
  cases hd : get_draft db draft_id with
  | none =>
    simp [publish_draft, hd]
  | some draft =>
    have hid : draft.id = draft_id := get_draft_id_eq hd
    have hnei : i ≠ draft.id := by
      rw [hid]
      exact hne
    simp only [publish_draft, hd]
    by_cases hg : (config.approval_required = true ∧ force = false ∧
        ¬(draft.status = "approved".toList ∨ draft.status = "scheduled".toList))
    · rw [if_pos hg]
      simp
    · rw [if_neg hg]
      cases hv : (validate_draft draft.platform draft.content config).ok with
      | false =>
        rw [if_neg (by decide)]
        simp
      | true =>
        rw [if_pos rfl]
        cases hcl : alookup clients draft.platform with
        | none =>
          simp [hcl]
        | some client =>
          cases hpub : client draft.content (effective_dry_run db config) with
          | ok resp =>
            simp only [hcl, hpub, create_publish_log, update_draft_status]
            refine ⟨by trivial, by trivial, ?_, ?_, ?_⟩
            · exact filter_map_upd_ne db.drafts draft.id i hnei
            · rw [List.filter_append]
              have hr : List.filter (fun l : PublishLog => decide (l.draft_id = i))
                  [{ id := db.next_publish_log_id, draft_id := draft.id,
                     platform := draft.platform, attempted_at := db.now,
                     success := true, response := some resp, error := none }] = [] := by
                simp [Ne.symm hnei]
              rw [hr, List.append_nil]
            · exact map_id_map_upd db.drafts draft.id
          | error exc =>
            simp only [hcl, hpub, create_publish_log]
            refine ⟨by trivial, by trivial, by trivial, ?_, by trivial⟩
            rw [List.filter_append]
            have hr : List.filter (fun l : PublishLog => decide (l.draft_id = i))
                [{ id := db.next_publish_log_id, draft_id := draft.id,
                   platform := draft.platform, attempted_at := db.now,
                   success := false, response := none, error := some exc }] = [] := by
              simp [Ne.symm hnei]
            rw [hr, List.append_nil]

theorem sweepLoop_cons (config : Config) (clients : Clients) (db : DB) (d : Draft)
    (rest : List Draft) :
    sweepLoop config clients db (d :: rest) =
      ((sweepLoop config clients (publish_draft db config d.id clients true).1 rest).1,
        (publish_draft db config d.id clients true).2 ::
          (sweepLoop config clients (publish_draft db config d.id clients true).1 rest).2) :=
  rfl

theorem sweepLoop_append (config : Config) (clients : Clients) :
    ∀ (xs ys : List Draft) (db : DB),
      (sweepLoop config clients db (xs ++ ys)).1 =
        (sweepLoop config clients (sweepLoop config clients db xs).1 ys).1 := by
  intro xs
  induction xs with
  | nil =>
    intro ys db
    rfl
  | cons x xs ih =>
    intro ys db
    rw [List.cons_append, sweepLoop_cons, sweepLoop_cons]
    exact ih ys (publish_draft db config x.id clients true).1

theorem sweepLoop_frame (config : Config) (clients : Clients) (i : Nat) :
    ∀ (rows : List Draft) (db : DB), (∀ r ∈ rows, r.id ≠ i) →
      (sweepLoop config clients db rows).1.entries = db.entries ∧
      (sweepLoop config clients db rows).1.dry_run_setting = db.dry_run_setting ∧
      (sweepLoop config clients db rows).1.drafts.filter
          (fun x => decide (x.id = i)) =
        db.drafts.filter (fun x => decide (x.id = i)) ∧
      (sweepLoop config clients db rows).1.publish_logs.filter
          (fun l => decide (l.draft_id = i)) =
        db.publish_logs.filter (fun l => decide (l.draft_id = i)) ∧
      (sweepLoop config clients db rows).1.drafts.map Draft.id =
        db.drafts.map Draft.id := by
  intro rows
  induction rows with
  | nil =>
    intro db h
    exact ⟨rfl, rfl, rfl, rfl, rfl⟩
  | cons r rows ih =>
    intro db h
    obtain ⟨e1, d1, f1, g1, m1⟩ :=
      publish_draft_frame db config r.id clients true i
        (fun hEq => (h r (by simp)) hEq.symm)
    obtain ⟨e2, d2, f2, g2, m2⟩ :=
      ih (publish_draft db config r.id clients true).1 (fun x hx => h x (by simp [hx]))
    rw [sweepLoop_cons]
    exact ⟨e2.trans e1, d2.trans d1, f2.trans f1, g2.trans g1, m2.trans m1⟩

theorem list_due_perm (db : DB) (now_iso : Str) :
    (list_due_scheduled_drafts db now_iso).Perm
      (db.drafts.filter (dueFilter now_iso)) :=
  List.perm_insertionSort dueOrder _

theorem list_due_pairwise (db : DB) (now_iso : Str)
    (hpw : db.drafts.Pairwise (fun a b => a.id ≠ b.id)) :
    (list_due_scheduled_drafts db now_iso).Pairwise (fun a b => a.id ≠ b.id) := by
  exact ((list_due_perm db now_iso).pairwise_iff (fun h => Ne.symm h)).mpr
    (hpw.filter _)

theorem list_due_mem {db : DB} {now_iso : Str} {d : Draft}
    (hmem : d ∈ db.drafts) (hdue : dueFilter now_iso d = true) :
    d ∈ list_due_scheduled_drafts db now_iso :=
  ((list_due_perm db now_iso).mem_iff).mpr (List.mem_filter.mpr ⟨hmem, hdue⟩)

theorem pairwise_of_map_id_eq {l1 l2 : List Draft}
    (h : l1.map Draft.id = l2.map Draft.id)
    (hpw : l2.Pairwise (fun a b => a.id ≠ b.id)) :
    l1.Pairwise (fun a b => a.id ≠ b.id) := by
  have h2 : (l2.map Draft.id).Pairwise (fun a b => a ≠ b) := List.pairwise_map.mpr hpw
  rw [← h] at h2
  exact List.pairwise_map.mp h2

/-! ### C4 — scheduler idempotence on success -/

/-- C4: a `scheduled` draft whose `scheduled_at` is at or before `now`
(valid content, working client for its platform, draft ids distinct) is
published exactly once by one `run_scheduler_once` invocation — its row
becomes `published` with the schedule cleared and exactly one successful
publish-log row is appended for it — and any second invocation no longer
selects it (the due query filters on status `scheduled`), leaving its row
and its publish-log entries untouched. -/
theorem C4_scheduler_idempotent_on_success
    (db : DB) (config : Config) (now_iso : Str) (clients : Clients) (d : Draft)
    (t : Str) (client : Client) (resp : Str)
    (hpw : db.drafts.Pairwise (fun a b => a.id ≠ b.id))
    (hmem : d ∈ db.drafts)
    (hstatus : d.status = "scheduled".toList)
    (hsched : d.scheduled_at = some t)
    (hdue : strLe t now_iso = true)
    (hval : (validate_draft d.platform d.content config).ok = true)
    (hcl : alookup clients d.platform = some client)
    (hok : ∀ dry, client d.content dry = .ok resp) :
    ((run_scheduler_once db config now_iso clients).1.drafts.filter
        (fun x => decide (x.id = d.id)) =
      [{ d with status := "published".toList, scheduled_at := none }]) ∧
    (∃ row : PublishLog,
      (run_scheduler_once db config now_iso clients).1.publish_logs.filter
          (fun l => decide (l.draft_id = d.id)) =
        db.publish_logs.filter (fun l => decide (l.draft_id = d.id)) ++ [row] ∧
      row.success = true) ∧
    (∀ now2 : Str,
      (¬ d.id ∈ (list_due_scheduled_drafts
          (run_scheduler_once db config now_iso clients).1 now2).map Draft.id) ∧
      (run_scheduler_once (run_scheduler_once db config now_iso clients).1 config
            now2 clients).1.drafts.filter (fun x => decide (x.id = d.id)) =
        (run_scheduler_once db config now_iso clients).1.drafts.filter
          (fun x => decide (x.id = d.id)) ∧
      (run_scheduler_once (run_scheduler_once db config now_iso clients).1 config
            now2 clients).1.publish_logs.filter (fun l => decide (l.draft_id = d.id)) =
        (run_scheduler_once db config now_iso clients).1.publish_logs.filter
          (fun l => decide (l.draft_id = d.id))) := by
  have hdueF : dueFilter now_iso d = true := by
    unfold dueFilter
    rw [hsched]
    simp [hstatus, hdue]
  have hmem2 : d ∈ list_due_scheduled_drafts db now_iso := list_due_mem hmem hdueF
  have hpw2 := list_due_pairwise db now_iso hpw
  obtain ⟨pre, post, hsplit⟩ := List.append_of_mem hmem2
  rw [hsplit] at hpw2
  have hsplit_pw := List.pairwise_append.mp hpw2
  have hpre : ∀ x ∈ pre, x.id ≠ d.id := fun x hx => hsplit_pw.2.2 x hx d (by simp)
  have hpost : ∀ x ∈ post, x.id ≠ d.id := fun x hx hEq =>
    ((List.pairwise_cons.mp hsplit_pw.2.1).1 x hx) hEq.symm
  obtain ⟨e1, d1, f1, g1, m1⟩ := sweepLoop_frame config clients d.id pre db hpre
  have hfilter_db : db.drafts.filter (fun x => decide (x.id = d.id)) = [d] :=
    draft_filter_singleton hpw hmem
  have hfind : get_draft (sweepLoop config clients db pre).1 d.id = some d :=
    find?_eq_of_filter_singleton (f1.trans hfilter_db)
  have hpub := publish_draft_success_eq hfind (Or.inr (Or.inl rfl)) hval hcl (hok _)
  have hrun1 : (run_scheduler_once db config now_iso clients).1 =
      (sweepLoop config clients
        (publish_draft (sweepLoop config clients db pre).1 config d.id clients
          true).1 post).1 := by
    show (sweepLoop config clients db (list_due_scheduled_drafts db now_iso)).1 = _
    rw [hsplit, sweepLoop_append, sweepLoop_cons]
  obtain ⟨e3, d3, f3, g3, m3⟩ := sweepLoop_frame config clients d.id post
    (publish_draft (sweepLoop config clients db pre).1 config d.id clients true).1
    hpost
  have hA : (run_scheduler_once db config now_iso clients).1.drafts.filter
      (fun x => decide (x.id = d.id)) =
      [{ d with status := "published".toList, scheduled_at := none }] := by
    rw [hrun1, f3, hpub]
    show ((sweepLoop config clients db pre).1.drafts.map
        (fun x => if x.id = d.id then
          { x with status := "published".toList, scheduled_at := none }
        else x)).filter (fun x => decide (x.id = d.id)) = _
    rw [filter_map_upd_self, f1.trans hfilter_db]
    simp
  have hB : (run_scheduler_once db config now_iso clients).1.publish_logs.filter
      (fun l => decide (l.draft_id = d.id)) =
      db.publish_logs.filter (fun l => decide (l.draft_id = d.id)) ++
        [{ id := (sweepLoop config clients db pre).1.next_publish_log_id,
           draft_id := d.id, platform := d.platform,
           attempted_at := (sweepLoop config clients db pre).1.now,
           success := true, response := some resp, error := none }] := by
    rw [hrun1, g3, hpub]
    show ((sweepLoop config clients db pre).1.publish_logs ++
        ([{ id := (sweepLoop config clients db pre).1.next_publish_log_id,
            draft_id := d.id, platform := d.platform,
            attempted_at := (sweepLoop config clients db pre).1.now,
            success := true, response := some resp, error := none }] :
          List PublishLog)).filter
        (fun l : PublishLog => decide (l.draft_id = d.id)) = _
    rw [List.filter_append, g1]
    congr 1
    simp
  have hids : (run_scheduler_once db config now_iso clients).1.drafts.map Draft.id =
      db.drafts.map Draft.id := by
    rw [hrun1, m3, hpub]
    show ((sweepLoop config clients db pre).1.drafts.map
        (fun x => if x.id = d.id then
          { x with status := "published".toList, scheduled_at := none }
        else x)).map Draft.id = _
    rw [map_id_map_upd]
    exact m1
  refine ⟨hA, ⟨_, hB, rfl⟩, ?_⟩
  intro now2
  have hpw3 : (run_scheduler_once db config now_iso clients).1.drafts.Pairwise
      (fun a b => a.id ≠ b.id) := pairwise_of_map_id_eq hids hpw
  have hnotin : ¬ d.id ∈ (list_due_scheduled_drafts
      (run_scheduler_once db config now_iso clients).1 now2).map Draft.id := by
    intro hin
    obtain ⟨x, hx, hxid⟩ := List.mem_map.mp hin
    have hx2 := (list_due_perm
      (run_scheduler_once db config now_iso clients).1 now2).mem_iff.mp hx
    have hx3 := List.mem_filter.mp hx2
    have hx4 : x ∈ (run_scheduler_once db config now_iso clients).1.drafts.filter
        (fun y => decide (y.id = d.id)) :=
      List.mem_filter.mpr ⟨hx3.1, by simp [hxid]⟩
    rw [hA] at hx4
    have hx5 : x = { d with status := "published".toList, scheduled_at := none } :=
      List.mem_singleton.mp hx4
    have hx6 := hx3.2
    rw [hx5] at hx6
    simp [dueFilter] at hx6
  have hrows : ∀ r ∈ list_due_scheduled_drafts
      (run_scheduler_once db config now_iso clients).1 now2, r.id ≠ d.id := by
    intro r hr hEq
    exact hnotin (List.mem_map.mpr ⟨r, hr, hEq⟩)
  obtain ⟨e4, d4, f4, g4, m4⟩ := sweepLoop_frame config clients d.id
    (list_due_scheduled_drafts (run_scheduler_once db config now_iso clients).1 now2)
    (run_scheduler_once db config now_iso clients).1 hrows
  exact ⟨hnotin, f4, g4⟩

/-- C4 witness: the scheduled `draftS` (due `2024`) is published by the
sweep at `2025` — its row becomes `published` with the schedule cleared —
and is no longer selected by a second sweep. -/
theorem C4_scheduler_idempotent_on_success_witness :
    (run_scheduler_once dbS {} ("2025".toList) clientsOk).1.drafts.filter
        (fun x => decide (x.id = draftS.id)) =
      [{ draftS with status := "published".toList, scheduled_at := none }] ∧
    ¬ draftS.id ∈ (list_due_scheduled_drafts
        (run_scheduler_once dbS {} ("2025".toList) clientsOk).1
        ("2025".toList)).map Draft.id := by
  have h := C4_scheduler_idempotent_on_success dbS {} ("2025".toList) clientsOk
    draftS ("2024".toList) okClient ("resp".toList)
    (by decide) (by decide) rfl rfl (by decide) (by decide) rfl (fun dry => rfl)
  exact ⟨h.1, (h.2.2 ("2025".toList)).1⟩
